import Mathlib

/-!
Verification development for the SPX double-calendar trading system
(src/spx_double_calendar.py and friends).

Shallow embedding conventions:
* Python floats are modelled as rationals; the places where the code rounds
  (round(x * 20) / 20 for the $0.05 tick, int(x * 10) / 10.0 for the $0.10
  profit-target grid) are embedded explicitly.  Mathlib round differs from
  the Python built-in only at exact midpoints, which no statement below hits
  (every rounded quantity sits on the tick grid already).
* The SQLite trades table is a list of Trade records; save_trade performs a
  REPLACE keyed on trade_id.  The ORDER BY entry_date DESC clause of
  get_active_trades is omitted: no settled claim depends on row order, and
  the uniqueness hypotheses used below make the order irrelevant.
* Broker interaction is an oracle argument: for each order attempt the
  oracle says whether the order filled while the code was polling
  wrapper.orders during the fill-wait window (fillDuringWait) and whether a
  fill report arrived only after cancelOrder had been issued
  (fillAfterCancel).  The Python code never reads the latter; keeping the
  field in the model is what lets us state that fact.
* Fields of CalendarSpread that no claim touches (per-leg Greeks and IV
  snapshots, per-leg contract ids, exit date and time strings, SPX spot
  fields) are omitted from the record; every field a claim mentions is kept
  under its source name.
-/

namespace SPXDC

/-- Python round(x * 20) / 20: round a price to the nearest $0.05 SPX tick
(spx_double_calendar.py lines 2169, 2220, 2259, 2707). -/
def round05 (x : ℚ) : ℚ := (round (20 * x) : ℤ) / 20

/-- Python int(), truncation toward zero, on a rational. -/
def pyTrunc (x : ℚ) : ℤ := if 0 ≤ x then ⌊x⌋ else -⌊-x⌋

/-- Profit-target limit price: int(raw_profit_target * 10) / 10.0 where
raw_profit_target = entry_credit + entry_credit * profit_target_pct
(place_profit_target_order, lines 2724-2727): round DOWN to the $0.10 grid. -/
def profitTargetLimitPrice (entryCredit pct : ℚ) : ℚ :=
  (pyTrunc ((entryCredit + entryCredit * pct) * 10) : ℚ) / 10

/-- The claim-relevant slice of the CalendarSpread dataclass
(spx_double_calendar.py lines 143-205), with the source defaults. -/
structure Trade where
  trade_id : String
  entry_date : String := ""
  short_expiry : String := ""
  long_expiry : String := ""
  put_strike : ℚ := 0
  call_strike : ℚ := 0
  long_put_strike : ℚ := 0
  long_call_strike : ℚ := 0
  entry_credit : ℚ := 0
  exit_credit : ℚ := 0
  realized_pnl : ℚ := 0
  profit_target : ℚ := 0
  status : String := "PENDING"
  exit_reason : String := ""
  fill_status : String := "UNFILLED"
  fill_attempts : ℕ := 0
  last_bid_price : ℚ := 0
  profit_target_order_id : ℕ := 0
  profit_target_price : ℚ := 0
  profit_target_status : String := "NONE"
deriving Repr, DecidableEq

/-- The trade record built at step 5 of execute_calendar_spread_entry
(lines 2041-2052): everything else keeps the dataclass defaults. -/
def mkPendingTrade (tid entryDate shortExpiry longExpiry : String)
    (putStrike callStrike longPutStrike longCallStrike : ℚ) : Trade :=
  { trade_id := tid, entry_date := entryDate,
    short_expiry := shortExpiry, long_expiry := longExpiry,
    put_strike := putStrike, call_strike := callStrike,
    long_put_strike := longPutStrike, long_call_strike := longCallStrike }

/-- The claim-relevant slice of CalendarConfig (lines 43-81), source defaults. -/
structure Config where
  position_size : ℕ := 4
  price_increment : ℚ := 1/20
  max_price_attempts : ℕ := 5
  max_spread_premium : ℚ := 1/4
  profit_target_pct : ℚ := 1/2
  target_delta : ℚ := 1/5
deriving Repr, DecidableEq

def defaultConfig : Config := {}

/-- System state: the trades table, the full history of save_trade writes
(most recent last), the daily_log rows as (action, success), and the
outbound SMS notifications (abstracted to tags). -/
structure SysState where
  db : List Trade
  saves : List Trade
  log : List (String × Bool)
  sms : List String
deriving Repr, DecidableEq

def initState : SysState := ⟨[], [], [], []⟩

/-- CalendarDatabase.save_trade (lines 402-421): REPLACE INTO keyed on the
trade_id primary key. -/
def saveTrade (db : List Trade) (t : Trade) : List Trade :=
  if db.any (fun u => u.trade_id = t.trade_id) then
    db.map (fun u => if u.trade_id = t.trade_id then t else u)
  else db ++ [t]

/-- Write a record through save_trade and remember the write in the history. -/
def persist (st : SysState) (t : Trade) : SysState :=
  { st with db := saveTrade st.db t, saves := st.saves ++ [t] }

def addLog (st : SysState) (action : String) (success : Bool) : SysState :=
  { st with log := st.log ++ [(action, success)] }

def addSms (st : SysState) (msg : String) : SysState :=
  { st with sms := st.sms ++ [msg] }

/-- CalendarDatabase.get_active_trades (lines 423-444): rows whose status is
PENDING, ACTIVE or MANUAL_CONTROL. -/
def getActiveTrades (db : List Trade) : List Trade :=
  db.filter (fun t =>
    t.status = "PENDING" ∨ t.status = "ACTIVE" ∨ t.status = "MANUAL_CONTROL")

/-- CalendarDatabase.get_trade_by_id (lines 446-467). -/
def getTradeById (db : List Trade) (tid : String) : Option Trade :=
  db.find? (fun t => t.trade_id = tid)

/-- Broker behaviour for one priced attempt.  fillDuringWait is the
avg_fill_price if wrapper.orders reports Filled inside the fill-wait poll
loop; fillAfterCancel is a fill report that becomes visible only after
cancelOrder was issued.  The source never reads fillAfterCancel. -/
structure AttemptOutcome where
  fillDuringWait : Option ℚ := none
  fillAfterCancel : Option ℚ := none
deriving Repr, DecidableEq

/-- Observable order-flow events of one escalation loop. -/
inductive OrderEvent where
  | submit (price : ℚ)
  | cancelReq
  | fill (price : ℚ)
deriving Repr, DecidableEq

structure LoopResult where
  submitted : List ℚ
  events : List OrderEvent
  fillPrice : Option ℚ
deriving Repr, DecidableEq

/-- The entry escalation loop of place_calendar_spread_order
(lines 2187-2268).  The outcome list has one entry per remaining loop
iteration (max_price_attempts in total); rest.isEmpty mirrors the
attempt < max_price_attempts - 1 guard.  On a timed-out attempt the order
is cancelled and the next bid is round05(current + increment), submitted
only while it stays at or below maxBid. -/
def entryAttempts (inc maxBid : ℚ) : List AttemptOutcome → ℚ → LoopResult
  | [], _ => ⟨[], [], none⟩
  | o :: rest, bid =>
    match o.fillDuringWait with
    | some px => ⟨[bid], [.submit bid, .fill px], some px⟩
    | none =>
      if rest.isEmpty then ⟨[bid], [.submit bid, .cancelReq], none⟩
      else
        let nb := round05 (bid + inc)
        if nb ≤ maxBid then
          let r := entryAttempts inc maxBid rest nb
          ⟨bid :: r.submitted, .submit bid :: .cancelReq :: r.events, r.fillPrice⟩
        else ⟨[bid], [.submit bid, .cancelReq], none⟩

structure EntryOrderResult where
  trade : Trade
  submitted : List ℚ
  events : List OrderEvent
  success : Bool
deriving Repr, DecidableEq

/-- The two return paths of place_calendar_spread_order: on a fill the
trade becomes ACTIVE with entry_credit = avg_fill_price and profit_target =
round05(fill * (1 + profit_target_pct)); after the attempt budget it
becomes CANCELLED / UNFILLED.  fill_attempts counts submitted orders and
last_bid_price tracks the last submitted bid. -/
def entryFinish (cfg : Config) (trade : Trade) (spreadMid : ℚ)
    (r : LoopResult) : EntryOrderResult :=
  match r.fillPrice with
  | some px =>
    ⟨{ trade with
        entry_credit := px,
        profit_target := round05 (px * (1 + cfg.profit_target_pct)),
        status := "ACTIVE", fill_status := "FILLED",
        fill_attempts := r.submitted.length,
        last_bid_price := r.submitted.getLastD spreadMid },
      r.submitted, r.events, true⟩
  | none =>
    ⟨{ trade with
        status := "CANCELLED", fill_status := "UNFILLED",
        fill_attempts := r.submitted.length,
        last_bid_price := r.submitted.getLastD spreadMid },
      r.submitted, r.events, false⟩

/-- place_calendar_spread_order from the point where the tick-rounded net
mid spreadMid is known (lines 2180-2285): run the escalation loop with the
premium cap maxBid = mid + max_spread_premium, then package the outcome. -/
def placeCalendarSpreadOrder (cfg : Config) (trade : Trade) (spreadMid : ℚ)
    (outcomes : List AttemptOutcome) : EntryOrderResult :=
  entryFinish cfg trade spreadMid
    (entryAttempts cfg.price_increment (spreadMid + cfg.max_spread_premium)
      outcomes spreadMid)

/-- The exit escalation loop of close_calendar_position (lines 3238-3341):
each attempt submits a limit order at lmtPrice = -spread_mid; on a non-fill
the order is cancelled and the next attempt uses spread_mid - increment
(no tick rounding and no price cap on the exit side).  An order-status of
Cancelled observed during the wait has the same state effect as a timeout
(the code breaks to the cancelOrder call either way), so it is folded into
fillDuringWait = none.  The source never reads fillAfterCancel here either. -/
def exitAttempts (inc : ℚ) : List AttemptOutcome → ℚ → LoopResult
  | [], _ => ⟨[], [], none⟩
  | o :: rest, mid =>
    match o.fillDuringWait with
    | some px => ⟨[-mid], [.submit (-mid), .fill px], some px⟩
    | none =>
      let r := exitAttempts inc rest (mid - inc)
      ⟨-mid :: r.submitted, .submit (-mid) :: .cancelReq :: r.events, r.fillPrice⟩

/-- place_profit_target_order (lines 2716-2922).  obs is the final order
status observed for the GTC order after the bounded waits; the order is
treated as placed exactly when Submitted or PreSubmitted is seen, and only
then are profit_target_order_id / price / status written and persisted.
Contract-lookup failures and a missing or rejected status all return false
with no state change, so they are all represented by a non-confirming obs. -/
def placeProfitTargetOrder (cfg : Config) (st : SysState) (t : Trade)
    (orderId : ℕ) (obs : Option String) : SysState × Trade × Bool :=
  let price := profitTargetLimitPrice t.entry_credit cfg.profit_target_pct
  if obs = some "Submitted" ∨ obs = some "PreSubmitted" then
    let t1 := { t with
      profit_target_order_id := orderId,
      profit_target_price := price,
      profit_target_status := "PLACED" }
    (addSms (persist st t1) "sms_pt_active", t1, true)
  else (st, t, false)

/-- Oracle data for one entry run: the tick-rounded net mid, the broker
behaviour per attempt, the broker order id used for the GTC profit-target
order, and the status observed for that order. -/
structure EntryOracle where
  spreadMid : ℚ
  outcomes : List AttemptOutcome
  ptOrderId : ℕ
  ptObs : Option String
deriving Repr

/-- Steps 6-7 of execute_calendar_spread_entry (lines 2054-2081) together
with the body of place_calendar_spread_order: notify the attempt, run the
escalation loop; on a fill place the GTC profit-target order (a failure
there only warns and sends an SMS, it does not fail the entry), save the
trade and log TRADE_PLACED; on exhaustion log ORDER_FAILED and send the
failure SMS -- note that the CANCELLED record is NOT passed to save_trade
on that branch in the source. -/
def executeEntryOrderPhase (cfg : Config) (st0 : SysState) (trade0 : Trade)
    (o : EntryOracle) : SysState :=
  let r := placeCalendarSpreadOrder cfg trade0 o.spreadMid o.outcomes
  let st := addSms st0 "notify_trade_attempt"
  if r.success then
    let pr := placeProfitTargetOrder cfg st r.trade o.ptOrderId o.ptObs
    let st1 := pr.1
    let t1 := pr.2.1
    let st2 := if pr.2.2 then st1 else addSms st1 "sms_pt_failed"
    addSms (addLog (persist st2 t1) "TRADE_PLACED" true) "sms_entry_filled"
  else
    addSms (addLog st "ORDER_FAILED" false) "sms_entry_failed"

/-- The record update performed by check_profit_target_fill on a match
(lines 3038-3050). -/
def closeViaProfitTarget (t : Trade) (fillPrice : ℚ) : Trade :=
  { t with
    status := "CLOSED",
    exit_reason := "Profit target reached (GTC order)",
    exit_credit := |fillPrice|,
    profit_target_status := "FILLED",
    realized_pnl := |fillPrice| - t.entry_credit }

/-- check_profit_target_fill (lines 3029-3074): scan the active trades for
the first one whose profit_target_order_id matches the filled order and
whose profit_target_status is PLACED; close it, persist, log and notify,
and stop.  Returns true when a trade was handled. -/
def checkProfitTargetFill (st : SysState) (orderId : ℕ) (fillPrice : ℚ) :
    SysState × Bool :=
  match (getActiveTrades st.db).find? (fun t =>
      t.profit_target_order_id = orderId ∧ t.profit_target_status = "PLACED") with
  | some t =>
    let t1 := closeViaProfitTarget t fillPrice
    (addSms (addLog (persist st t1) "PROFIT_TARGET_HIT" true) "sms_pt_hit", true)
  | none => (st, false)

/-- Broker behaviour for one close_calendar_position run: the first market
value fetch can fail (line 3162), a contract-details wait can time out
(line 3203), the second value fetch can fail (line 3219), or the exit
escalation loop runs with mid-price spreadMid and per-attempt outcomes. -/
inductive CloseOracle where
  | noMarketValue
  | contractTimeout
  | noMarketValue2
  | attempts (spreadMid : ℚ) (outcomes : List AttemptOutcome)

/-- close_calendar_position (lines 3130-3351).  First, a standing PLACED
profit-target order is cancelled and the CANCELLED sub-status persisted;
then any failure path returns false without touching the trade again, and
a filled closing attempt writes the CLOSED record with
realized_pnl = abs(exit price) - entry_credit. -/
def cancelPTRecord (t : Trade) : Trade :=
  { t with profit_target_status := "CANCELLED" }

/-- The CLOSED record written when a closing attempt fills at average price
px (lines 3303-3319): exit_credit = abs(px), realized_pnl =
exit_credit - entry_credit. -/
def closeFillRecord (t : Trade) (reason : String) (px : ℚ) : Trade :=
  { t with
    status := "CLOSED", exit_reason := reason, exit_credit := |px|,
    realized_pnl := |px| - t.entry_credit }

def closeCalendarPosition (cfg : Config) (st : SysState) (trade : Trade)
    (reason : String) (oracle : CloseOracle) : SysState × Bool :=
  let cancelled :=
    0 < trade.profit_target_order_id ∧ trade.profit_target_status = "PLACED"
  let t1 := if cancelled then cancelPTRecord trade else trade
  let st1 := if cancelled then persist st t1 else st
  match oracle with
  | .noMarketValue => (st1, false)
  | .contractTimeout => (st1, false)
  | .noMarketValue2 => (st1, false)
  | .attempts mid outcomes =>
    let r := exitAttempts cfg.price_increment outcomes mid
    match r.fillPrice with
    | some px =>
      (addSms (persist st1 (closeFillRecord t1 reason px))
        "sms_position_closed", true)
    | none => (st1, false)

/-- The STOP_MANAGING branch of process_web_commands (lines 2604-2619): the
MANUAL_CONTROL switch is saved first, and only then is a standing PLACED
profit-target order cancelled and saved again. -/
def stopManaging (st : SysState) (trade : Trade) : SysState :=
  let t1 := { trade with status := "MANUAL_CONTROL" }
  let st1 := persist st t1
  if 0 < t1.profit_target_order_id ∧ t1.profit_target_status = "PLACED" then
    persist st1 { t1 with profit_target_status := "CANCELLED" }
  else st1

/-- ASCII upper-casing of one character, as Python str.upper acts on the
ASCII-only broker status strings used here. -/
def asciiUpper (c : Char) : Char :=
  if c.isLower then Char.ofNat (c.toNat - 32) else c

/-- Python status.upper() for the ASCII broker status strings. -/
def pyUpper (s : String) : String := ⟨s.data.map asciiUpper⟩

/-- One iteration of the check_gtc_order_status loop (lines 3088-3112): for
a trade with a PLACED profit-target order, look up the cached broker
status; when it is Cancelled, Rejected or ApiCancelled, store
status.upper() into profit_target_status (note: ApiCancelled upper-cases to
APICANCELLED), persist and alert. -/
def gtcStep (statuses : ℕ → Option String) (acc : SysState) (t : Trade) :
    SysState :=
  match statuses t.profit_target_order_id with
  | some s =>
    if s = "Cancelled" ∨ s = "Rejected" ∨ s = "ApiCancelled" then
      persist (addSms acc "sms_gtc_alert")
        { t with profit_target_status := pyUpper s }
    else acc
  | none => acc

/-- check_gtc_order_status (lines 3076-3115): run the step over every
active trade that has a PLACED profit-target order. -/
def checkGtcOrderStatus (st : SysState) (statuses : ℕ → Option String) :
    SysState :=
  ((getActiveTrades st.db).filter (fun t =>
    0 < t.profit_target_order_id ∧ t.profit_target_status = "PLACED")).foldl
    (gtcStep statuses) st

/-- The parsed form of the reconciliation position key
f"SPX-{expiry}-{strike}-{right}" (lines 2461, 2498-2501). -/
structure LegKey where
  expiry : String
  strike : ℚ
  right : String
deriving Repr, DecidableEq

/-- One row of the broker position snapshot collected during
daily_position_reconciliation. -/
structure BrokerPos where
  key : LegKey
  position : ℚ
deriving Repr, DecidableEq

/-- The four expected legs of an active trade with their expected signed
quantities and display names (lines 2497-2502); the long strikes fall back
to the short strikes when the stored long strike is 0.0 (Python
truthiness). -/
def expectedLegs (cfg : Config) (t : Trade) : List (LegKey × ℚ × String) :=
  [ (⟨t.short_expiry, t.put_strike, "P"⟩, -(cfg.position_size : ℚ), "Short Put"),
    (⟨t.short_expiry, t.call_strike, "C"⟩, -(cfg.position_size : ℚ), "Short Call"),
    (⟨t.long_expiry, if t.long_put_strike ≠ 0 then t.long_put_strike else t.put_strike, "P"⟩,
      (cfg.position_size : ℚ), "Long Put"),
    (⟨t.long_expiry, if t.long_call_strike ≠ 0 then t.long_call_strike else t.call_strike, "C"⟩,
      (cfg.position_size : ℚ), "Long Call") ]

/-- Per-trade discrepancy strings (lines 2504-2511): a missing key yields a
missing-leg entry naming the leg; a present key with quantity differing by
more than 0.1 yields a mismatch entry. -/
def tradeDiscrepancies (cfg : Config) (snapshot : List BrokerPos) (t : Trade) :
    List String :=
  (expectedLegs cfg t).filterMap (fun leg =>
    match snapshot.find? (fun p => p.key = leg.1) with
    | some p =>
      if 1/10 < |p.position - leg.2.1| then
        some (leg.2.2 ++ ": quantity mismatch")
      else none
    | none => some (leg.2.2 ++ ": Missing from IBKR"))

/-- All keys claimed by the tracked active trades (lines 2517-2524). -/
def systemKeys (cfg : Config) (trades : List Trade) : List LegKey :=
  trades.flatMap (fun t => (expectedLegs cfg t).map (fun leg => leg.1))

/-- Broker rows that map to no tracked trade and have a nonzero quantity
(lines 2526-2530). -/
def orphanedPositions (cfg : Config) (trades : List Trade)
    (snapshot : List BrokerPos) : List BrokerPos :=
  snapshot.filter (fun p => p.key ∉ systemKeys cfg trades ∧ 1/10 < |p.position|)

/-- daily_position_reconciliation (lines 2408-2573) after the snapshot has
arrived: compute per-trade discrepancy lists and orphaned rows, log the
outcome, and send an SMS only above the discrepancy thresholds.  The
routine never calls save_trade: it reports and does not correct. -/
def dailyPositionReconciliation (cfg : Config) (st : SysState)
    (snapshot : List BrokerPos) :
    SysState × List (String × List String) × List BrokerPos :=
  let active := getActiveTrades st.db
  if active.isEmpty then
    (addLog st "RECONCILIATION" true, [], [])
  else
    let discs := (active.map (fun t => (t.trade_id, tradeDiscrepancies cfg snapshot t))).filter
      (fun d => ¬ d.2.isEmpty)
    let orphans := orphanedPositions cfg active snapshot
    let totalMissing := (active.map (fun t =>
      ((tradeDiscrepancies cfg snapshot t).filter
        (fun s => ¬ (s.splitOn ": Missing from IBKR").length = 1)).length)).sum
    if discs.isEmpty ∧ orphans.isEmpty then
      (addLog st "RECONCILIATION" true, discs, orphans)
    else
      let st1 := if 4 < totalMissing ∨ 4 < orphans.length
                 then addSms st "sms_reconciliation" else st
      (addLog st1 "RECONCILIATION" false, discs, orphans)

/-- One quoted option of the chain used by adjust_ghost_strike. -/
structure ChainQuote where
  strike : ℚ
  right : String
  delta : ℚ
deriving Repr, DecidableEq

/-- Stable insertion into a strike-sorted list: the new quote goes before
the first quote whose strike is not below its own. -/
def insertByStrike (o : ChainQuote) : List ChainQuote → List ChainQuote
  | [] => [o]
  | p :: rest =>
    if p.strike < o.strike then p :: insertByStrike o rest
    else o :: p :: rest

/-- The chain restricted to one right and stably sorted by strike
(adjust_ghost_strike lines 3414-3420; Python list.sort is stable). -/
def sortedChain (chain : List ChainQuote) (optionType : String) :
    List ChainQuote :=
  (chain.filter (fun o => o.right = optionType)).foldr insertByStrike []

/-- Distance of the absolute delta of a quote from the target delta
(lines 3439-3447). -/
def candDiff (targetDelta : ℚ) (o : ChainQuote) : ℚ := |(|o.delta|) - targetDelta|

/-- The candidate quotes one strike up and one strike down from index i in
the sorted chain, in the order the source builds them (lines 3433-3448). -/
def adjacentCandidates (sorted : List ChainQuote) (i : ℕ) : List ChainQuote :=
  (sorted[i+1]?).toList ++ (if i = 0 then [] else (sorted[i-1]?).toList)

/-- The try-block body of adjust_ghost_strike (lines 3406-3458) as written:
with an empty chain, no quotes of the right type, or the strike absent from
the chain, the strike is returned unchanged; otherwise the adjacent
candidate whose absolute delta is closest to target wins, the up candidate
on ties (Python min takes the first minimum).  This body is unreachable in
the shipped program -- see adjustGhostStrike below -- and is kept here only
as the translation of the dead code. -/
def adjustGhostStrikeBody (targetDelta : ℚ) (chain : List ChainQuote)
    (strike : ℚ) (optionType : String) : ℚ :=
  if chain.isEmpty then strike
  else
    let sorted := sortedChain chain optionType
    if sorted.isEmpty then strike
    else
      match sorted.findIdx? (fun o => o.strike = strike) with
      | none => strike
      | some i =>
        match sorted[i+1]?, if i = 0 then none else sorted[i-1]? with
        | none, none => strike
        | some u, none => u.strike
        | none, some d => d.strike
        | some u, some d =>
          if candDiff targetDelta u ≤ candDiff targetDelta d
          then u.strike else d.strike

/-- adjust_ghost_strike (lines 3400-3462) as the program actually behaves:
the first statement of its try block calls
self.get_option_chain_for_expiry(expiry) (line 3409), a method that is
defined nowhere in the repository (SPXCalendarTrader has no base class and
the name is never assigned), so every call raises AttributeError before the
chain is examined; the blanket except at lines 3460-3462 catches it, logs
the error and returns the input strike unchanged.  The chain and delta
parameters are kept to mirror the data the body would have consumed. -/
def adjustGhostStrike (_targetDelta : ℚ) (_chain : List ChainQuote)
    (strike : ℚ) (_optionType : String) : ℚ :=
  strike

/-- The ghost_strike_action = move branch of execute_calendar_spread_entry
(lines 1966-1998): each of the two candidate short strikes is adjusted
exactly when it equals the corresponding long strike of the last-week
trade (long strikes falling back to short strikes when 0.0). -/
def ghostMoveAdjust (targetDelta : ℚ) (chain : List ChainQuote)
    (putStrike callStrike : ℚ) (lastWeek : Trade) : ℚ × ℚ :=
  let lwLongPut := if lastWeek.long_put_strike ≠ 0 then lastWeek.long_put_strike
                   else lastWeek.put_strike
  let lwLongCall := if lastWeek.long_call_strike ≠ 0 then lastWeek.long_call_strike
                    else lastWeek.call_strike
  (if putStrike = lwLongPut
     then adjustGhostStrike targetDelta chain putStrike "P" else putStrike,
   if callStrike = lwLongCall
     then adjustGhostStrike targetDelta chain callStrike "C" else callStrike)

/-- The lifecycle operations a running system performs, each carrying its
broker oracle data.  closeCmd covers both the CLOSE_POSITION web command and
the scheduled time exit (both call close_calendar_position on a stored
trade); stopCmd is STOP_MANAGING; gtcCheck is check_gtc_order_status;
reconcile is daily_position_reconciliation. -/
inductive Op where
  | entry (tid entryDate shortExpiry longExpiry : String)
      (putStrike callStrike longPutStrike longCallStrike : ℚ) (o : EntryOracle)
  | ptFill (orderId : ℕ) (fillPrice : ℚ)
  | closeCmd (tid reason : String) (oracle : CloseOracle)
  | stopCmd (tid : String)
  | gtcCheck (statuses : ℕ → Option String)
  | reconcile (snapshot : List BrokerPos)

def applyOp (cfg : Config) (st : SysState) : Op → SysState
  | .entry tid ed se le ps cs lps lcs o =>
    executeEntryOrderPhase cfg st (mkPendingTrade tid ed se le ps cs lps lcs) o
  | .ptFill oid px => (checkProfitTargetFill st oid px).1
  | .closeCmd tid reason oracle =>
    match getTradeById st.db tid with
    | some t => (closeCalendarPosition cfg st t reason oracle).1
    | none => st
  | .stopCmd tid =>
    match getTradeById st.db tid with
    | some t => stopManaging st t
    | none => st
  | .gtcCheck f => checkGtcOrderStatus st f
  | .reconcile snap => (dailyPositionReconciliation cfg st snap).1

/-- Well-formedness of the oracle data: broker order ids are positive
(wrapper.next_order_id starts from the positive id IBKR hands out). -/
def Op.wf : Op → Prop
  | .entry _ _ _ _ _ _ _ _ o => 0 < o.ptOrderId
  | _ => True

/-- States reachable from an empty store through the modelled operations. -/
inductive Reachable (cfg : Config) : SysState → Prop where
  | init : Reachable cfg initState
  | step (st : SysState) (op : Op) (h : Reachable cfg st) (hwf : op.wf) :
      Reachable cfg (applyOp cfg st op)

/-- The bid submitted on attempt j of the entry loop (0-based): the initial
tick-rounded mid, then round05(previous + increment) each escalation. -/
def nthBid (inc bid : ℚ) : ℕ → ℚ
  | 0 => bid
  | j + 1 => round05 (nthBid inc bid j + inc)

/-- A pending trade used to instantiate witnesses on concrete inputs. -/
def tW : Trade := mkPendingTrade "CAL_W" "2026-10-05" "21" "28" 5000 5100 5000 5100

/-- The C1 run: place_calendar_spread_order with the claim parameters
max_price_attempts = 5 (default), price_increment = 0.05 (default), premium
cap prem, initial reference price P0, and no fill on any attempt. -/
def entryEscalationRun (t : Trade) (prem P0 : ℚ) : EntryOrderResult :=
  placeCalendarSpreadOrder { max_spread_premium := prem } t P0
    (List.replicate 5 {})

/-- Checks that every submit event is preceded by a cancel request for the
previous order: the Bool argument tracks whether an order is currently
outstanding without a cancel request having been issued for it. -/
def oneLiveOrder : List OrderEvent → Bool → Bool
  | [], _ => true
  | OrderEvent.submit _ :: rest, b => if b then false else oneLiveOrder rest true
  | OrderEvent.cancelReq :: rest, _ => oneLiveOrder rest false
  | OrderEvent.fill _ :: rest, b => oneLiveOrder rest b

/-- Erase every fill report that only became visible after the cancel
request: what a broker trace looks like to code that never re-checks fill
status after cancelling. -/
def clearPostCancel (outcomes : List AttemptOutcome) : List AttemptOutcome :=
  outcomes.map (fun o => { o with fillAfterCancel := none })

/-- A broker trace in which the first entry order fills right after its
cancel was requested and nothing else ever fills. -/
def c2Outcomes : List AttemptOutcome :=
  [{ fillAfterCancel := some (41/10) }, {}, {}, {}, {}]

/-- An ACTIVE trade with a PLACED profit-target order 100 at price 6.00, as
left behind by an entry fill at 4.00. -/
def tW4 : Trade :=
  { tW with
    status := "ACTIVE", entry_credit := 4,
    profit_target_order_id := 100, profit_target_price := 6,
    profit_target_status := "PLACED" }

/-- A store holding just that trade. -/
def stW4 : SysState := { db := [tW4], saves := [], log := [], sms := [] }

/-- The failure modes of one close_calendar_position run: market value
unavailable, a contract-details timeout, or every closing attempt
unfilled. -/
def closeRunFails : CloseOracle → Prop
  | .noMarketValue => True
  | .contractTimeout => True
  | .noMarketValue2 => True
  | .attempts _ outcomes => ∀ o ∈ outcomes, o.fillDuringWait = none

/-- An entry oracle in which no attempt ever fills (and the GTC leg of the
oracle is never consulted). -/
def c6Oracle : EntryOracle :=
  { spreadMid := 4, outcomes := List.replicate 5 {}, ptOrderId := 101,
    ptObs := none }

/-- A broker snapshot carrying exactly the four legs of tW4 with the
expected signed quantities for position_size = 4. -/
def snapW : List BrokerPos :=
  [⟨⟨"21", 5000, "P"⟩, -4⟩, ⟨⟨"21", 5100, "C"⟩, -4⟩,
   ⟨⟨"28", 5000, "P"⟩, 4⟩, ⟨⟨"28", 5100, "C"⟩, 4⟩]

/-- A put chain for the short expiry: 5000 at delta -0.18, 5005 at -0.21,
5010 at -0.25 (target delta 0.20). -/
def c9Chain : List ChainQuote :=
  [⟨5000, "P", -(9/50)⟩, ⟨5005, "P", -(21/100)⟩, ⟨5010, "P", -(1/4)⟩]

/-- The trade entered about seven days earlier: an adjusted (asymmetric)
double calendar whose short put sits at 5000 and whose long put sits at
5005 -- so today the candidate short put 5005 is a ghost strike. -/
def c9LastWeek : Trade :=
  { trade_id := "CAL_LW", entry_date := "2026-09-28",
    short_expiry := "14", long_expiry := "21",
    put_strike := 5000, call_strike := 5200,
    long_put_strike := 5005, long_call_strike := 5200,
    status := "ACTIVE" }

/-- Every record the store has ever held: current rows plus the full
save_trade history. -/
def allRecords (st : SysState) : List Trade := st.db ++ st.saves

/-- The profit-target sub-statuses the code can actually write (the spec
set plus APICANCELLED from status.upper() on an ApiCancelled report). -/
def ptStatusSet : List String :=
  ["NONE", "PLACED", "FILLED", "CANCELLED", "REJECTED", "APICANCELLED"]

/-- Record-level profit-target invariant: the sub-status lies in
ptStatusSet, and PLACED entails an ACTIVE or MANUAL_CONTROL status and a
positive broker order id. -/
def ptStatusOk (t : Trade) : Prop :=
  t.profit_target_status ∈ ptStatusSet ∧
  (t.profit_target_status = "PLACED" →
    (t.status = "ACTIVE" ∨ t.status = "MANUAL_CONTROL") ∧
    0 < t.profit_target_order_id)

/-- Record-level close invariant: a CLOSED record carries
realized_pnl = exit_credit - entry_credit. -/
def pnlOk (t : Trade) : Prop :=
  t.status = "CLOSED" → t.realized_pnl = t.exit_credit - t.entry_credit

def recordOk (t : Trade) : Prop := ptStatusOk t ∧ pnlOk t

/-- The operations other than the daily entry. -/
def Op.nonEntry : Op → Prop
  | .entry _ _ _ _ _ _ _ _ _ => False
  | _ => True

/-- The save-history records of one trade that are CLOSED: each is one
write of realized_pnl. -/
def closedSaves (st : SysState) (tid : String) : List Trade :=
  st.saves.filter (fun t => t.trade_id = tid ∧ t.status = "CLOSED")

/-- An entry oracle whose first attempt fills at 4.00 and whose GTC
profit-target order 100 is confirmed Submitted. -/
def entryOracleX : EntryOracle :=
  { spreadMid := 4, outcomes := [{ fillDuringWait := some 4 }, {}, {}, {}, {}],
    ptOrderId := 100, ptObs := some "Submitted" }

/-- The state after one successful entry run from the empty store. -/
def entryStateX : SysState :=
  applyOp defaultConfig initState
    (Op.entry "CAL_X" "2026-10-05" "21" "28" 5000 5100 5000 5100 entryOracleX)

/-- The ACTIVE trade record that entry run persists. -/
def tradeX1 : Trade :=
  { trade_id := "CAL_X", entry_date := "2026-10-05",
    short_expiry := "21", long_expiry := "28",
    put_strike := 5000, call_strike := 5100,
    long_put_strike := 5000, long_call_strike := 5100,
    entry_credit := 4, profit_target := 6,
    status := "ACTIVE", fill_status := "FILLED",
    fill_attempts := 1, last_bid_price := 4,
    profit_target_order_id := 100, profit_target_price := 6,
    profit_target_status := "PLACED" }

/-- tradeX1 right after its profit-target order was cancelled by a close. -/
def tradeX2 : Trade := { tradeX1 with profit_target_status := "CANCELLED" }

/-- tradeX2 closed by the first manual close at exit credit 6.00. -/
def tradeX3 : Trade :=
  { tradeX2 with
    status := "CLOSED", exit_reason := "Manual close via web interface",
    exit_credit := 6, realized_pnl := 2 }

/-- tradeX3 re-closed by a duplicate close command at exit credit 5.50. -/
def tradeX4 : Trade :=
  { tradeX3 with
    status := "CLOSED", exit_reason := "Manual close via web interface",
    exit_credit := 11/2, realized_pnl := 3/2 }

/-- Broker statuses for the GTC check: order 100 reports ApiCancelled. -/
def gtcStatusesX : ℕ → Option String :=
  fun n => if n = 100 then some "ApiCancelled" else none

/-- The state after the GTC status check follows the entry. -/
def gtcStateX : SysState :=
  applyOp defaultConfig entryStateX (Op.gtcCheck gtcStatusesX)

/-- The state after a first manual close (filled at -6.00). -/
def closeStateX1 : SysState :=
  applyOp defaultConfig entryStateX
    (Op.closeCmd "CAL_X" "Manual close via web interface"
      (CloseOracle.attempts 6 [{ fillDuringWait := some (-6) }]))

/-- The state after a duplicate close command (filled at -5.50). -/
def closeStateX2 : SysState :=
  applyOp defaultConfig closeStateX1
    (Op.closeCmd "CAL_X" "Manual close via web interface"
      (CloseOracle.attempts (11/2) [{ fillDuringWait := some (-(11/2)) }]))

-- (theorems follow from here on)

theorem round05_int_div (m : ℤ) : round05 ((m : ℚ)/20) = (m : ℚ)/20 := by
  unfold round05
  rw [mul_comm, div_mul_cancel₀ _ (by norm_num : (20:ℚ) ≠ 0), round_intCast]

theorem nthBid_shift (inc bid : ℚ) (j : ℕ) :
    nthBid inc bid (j + 1) = nthBid inc (round05 (bid + inc)) j := by
  induction j with
  | zero => rfl
  | succ j ih => rw [nthBid, ih, nthBid]

theorem nthBid_grid (k : ℤ) (j : ℕ) :
    nthBid (1/20) ((k : ℚ)/20) j = ((k + j : ℤ) : ℚ)/20 := by
  induction j with
  | zero => simp [nthBid]
  | succ j ih =>
    rw [nthBid, ih]
    have h : ((k + j : ℤ) : ℚ)/20 + 1/20 = ((k + (j+1) : ℤ) : ℚ)/20 := by
      push_cast; ring
    rw [h, round05_int_div]
    push_cast; ring_nf

theorem entryAttempts_all_none (inc maxBid : ℚ) :
    ∀ (n : ℕ) (bid : ℚ),
      (∀ j : ℕ, j + 1 < n → nthBid inc bid (j+1) ≤ maxBid) →
      (entryAttempts inc maxBid (List.replicate n {}) bid).submitted =
        (List.range n).map (nthBid inc bid) ∧
      (entryAttempts inc maxBid (List.replicate n {}) bid).fillPrice = none := by
  intro n
  induction n with
  | zero => intro bid _; exact ⟨rfl, rfl⟩
  | succ n ih =>
    intro bid hcap
    rw [List.replicate_succ, entryAttempts]
    cases n with
    | zero => exact ⟨rfl, rfl⟩
    | succ m =>
      have hne : (List.replicate (m+1) ({} : AttemptOutcome)).isEmpty = false := by
        simp [List.replicate_succ]
      have hle : round05 (bid + inc) ≤ maxBid := by
        have h0 := hcap 0 (by omega)
        simpa [nthBid] using h0
      have hrec := ih (round05 (bid + inc)) (by
        intro j hj
        have hj1 := hcap (j + 1) (by omega)
        rwa [nthBid_shift] at hj1)
      simp only [hne, Bool.false_eq_true, if_false, hle, if_true]
      constructor
      · show bid :: _ = _
        rw [hrec.1]
        conv_rhs => rw [List.range_succ_eq_map, List.map_cons, List.map_map]
        refine congrArg₂ _ rfl (List.map_congr_left ?_)
        intro j _
        show nthBid inc (round05 (bid + inc)) j = (nthBid inc bid ∘ Nat.succ) j
        simp only [Function.comp_apply, Nat.succ_eq_add_one]
        exact (nthBid_shift inc bid j).symm
      · exact hrec.2

theorem nthBid_grid_add (k : ℤ) (j : ℕ) :
    nthBid (1/20) ((k : ℚ)/20) j = (k : ℚ)/20 + (j : ℚ)/20 := by
  rw [nthBid_grid]
  push_cast
  ring

/-- C1: with max_price_attempts = 5, price_increment = 0.05, a tick-rounded
initial reference price P0 = k/20 and no fill on any attempt, the entry
loop of place_calendar_spread_order submits exactly P0, P0+0.05, P0+0.10,
P0+0.15, P0+0.20, never submits a price above P0 + max_spread_premium, and
the trade ends CANCELLED after the fifth non-fill.  (The full five-price
sequence needs max_spread_premium at least 0.20; the shipped default is
0.25.) -/
theorem c1_entry_price_escalation (t : Trade) (k : ℤ) (prem : ℚ)
    (hprem : 1/5 ≤ prem) :
    (entryEscalationRun t prem ((k : ℚ)/20)).submitted =
      [(k : ℚ)/20, (k : ℚ)/20 + 1/20, (k : ℚ)/20 + 2/20,
       (k : ℚ)/20 + 3/20, (k : ℚ)/20 + 4/20] ∧
    (∀ p ∈ (entryEscalationRun t prem ((k : ℚ)/20)).submitted,
      p ≤ (k : ℚ)/20 + prem) ∧
    (entryEscalationRun t prem ((k : ℚ)/20)).trade.status = "CANCELLED" ∧
    (entryEscalationRun t prem ((k : ℚ)/20)).trade.fill_attempts = 5 ∧
    (entryEscalationRun t prem ((k : ℚ)/20)).success = false := by
  have hprem0 : 0 ≤ prem := le_trans (by norm_num) hprem
  have hcap : ∀ j : ℕ, j + 1 < 5 →
      nthBid (1/20) ((k : ℚ)/20) (j+1) ≤ (k : ℚ)/20 + prem := by
    intro j hj
    rw [nthBid_grid_add]
    have hj4 : (j : ℚ) + 1 ≤ 4 := by
      have hn : j + 1 ≤ 4 := by omega
      exact_mod_cast hn
    have hstep : ((j:ℕ) + 1 : ℚ)/20 ≤ prem := by
      have h1 : ((j:ℕ) + 1 : ℚ)/20 ≤ 4/20 := by linarith
      have h2 : (4 : ℚ)/20 = 1/5 := by norm_num
      calc ((j:ℕ) + 1 : ℚ)/20 ≤ 4/20 := h1
        _ = 1/5 := h2
        _ ≤ prem := hprem
    push_cast
    push_cast at hstep
    linarith
  have hmain := entryAttempts_all_none (1/20) ((k : ℚ)/20 + prem) 5
    ((k : ℚ)/20) hcap
  have hrange : List.range 5 = [0, 1, 2, 3, 4] := rfl
  have hsubs : (entryAttempts (1/20) ((k : ℚ)/20 + prem)
      (List.replicate 5 {}) ((k : ℚ)/20)).submitted
      = [(k : ℚ)/20, (k : ℚ)/20 + 1/20, (k : ℚ)/20 + 2/20,
         (k : ℚ)/20 + 3/20, (k : ℚ)/20 + 4/20] := by
    rw [hmain.1, hrange]
    simp only [List.map_cons, List.map_nil, nthBid_grid_add]
    norm_num
  have hrun : entryEscalationRun t prem ((k : ℚ)/20) =
      { trade := { t with
          status := "CANCELLED", fill_status := "UNFILLED",
          fill_attempts := 5,
          last_bid_price := (k : ℚ)/20 + 4/20 },
        submitted := [(k : ℚ)/20, (k : ℚ)/20 + 1/20, (k : ℚ)/20 + 2/20,
          (k : ℚ)/20 + 3/20, (k : ℚ)/20 + 4/20],
        events := (entryAttempts (1/20) ((k : ℚ)/20 + prem)
          (List.replicate 5 {}) ((k : ℚ)/20)).events,
        success := false } := by
    have hcfg1 : ({ max_spread_premium := prem } : Config).price_increment
        = 1/20 := rfl
    have hcfg2 : ({ max_spread_premium := prem } : Config).max_spread_premium
        = prem := rfl
    unfold entryEscalationRun placeCalendarSpreadOrder
    rw [hcfg1, hcfg2]
    rcases hre : entryAttempts (1/20) ((k : ℚ)/20 + prem)
        (List.replicate 5 {}) ((k : ℚ)/20) with ⟨subs, evs, fp⟩
    have hfp := hmain.2
    rw [hre] at hsubs hfp
    simp only at hsubs hfp
    subst hsubs hfp
    simp [entryFinish]
  rw [hrun]
  refine ⟨rfl, ?_, rfl, rfl, rfl⟩
  intro p hp
  simp only [List.mem_cons, List.not_mem_nil, or_false] at hp
  have h45 : (4 : ℚ)/20 ≤ prem := by
    have h2 : (4 : ℚ)/20 = 1/5 := by norm_num
    rw [h2]; exact hprem
  rcases hp with h | h | h | h | h <;> rw [h] <;> norm_num <;> linarith

/-- C1 witness: the theorem instantiated at P0 = 4.00 (k = 80), the default
premium cap 0.25, and a concrete pending trade. -/
theorem c1_entry_price_escalation_witness :
    (1:ℚ)/5 ≤ 1/4 ∧
    ((entryEscalationRun tW (1/4) (((80:ℤ) : ℚ)/20)).submitted =
      [((80:ℤ) : ℚ)/20, ((80:ℤ) : ℚ)/20 + 1/20, ((80:ℤ) : ℚ)/20 + 2/20,
       ((80:ℤ) : ℚ)/20 + 3/20, ((80:ℤ) : ℚ)/20 + 4/20] ∧
    (∀ p ∈ (entryEscalationRun tW (1/4) (((80:ℤ) : ℚ)/20)).submitted,
      p ≤ ((80:ℤ) : ℚ)/20 + 1/4) ∧
    (entryEscalationRun tW (1/4) (((80:ℤ) : ℚ)/20)).trade.status = "CANCELLED" ∧
    (entryEscalationRun tW (1/4) (((80:ℤ) : ℚ)/20)).trade.fill_attempts = 5 ∧
    (entryEscalationRun tW (1/4) (((80:ℤ) : ℚ)/20)).success = false) :=
  ⟨by norm_num, c1_entry_price_escalation tW 80 (1/4) (by norm_num)⟩

theorem entry_events_one_live (inc maxBid : ℚ) :
    ∀ (outcomes : List AttemptOutcome) (bid : ℚ),
      oneLiveOrder (entryAttempts inc maxBid outcomes bid).events false
        = true := by
  intro outcomes
  induction outcomes with
  | nil => intro bid; rfl
  | cons o rest ih =>
    intro bid
    rw [entryAttempts]
    cases h : o.fillDuringWait with
    | some px => simp [h, oneLiveOrder]
    | none =>
      simp only [h]
      by_cases hre : rest.isEmpty
      · simp [hre, oneLiveOrder]
      · simp only [hre, Bool.false_eq_true, if_false]
        split
        · simpa [oneLiveOrder] using ih (round05 (bid + inc))
        · simp [oneLiveOrder]

theorem exit_events_one_live (inc : ℚ) :
    ∀ (outcomes : List AttemptOutcome) (mid : ℚ),
      oneLiveOrder (exitAttempts inc outcomes mid).events false = true := by
  intro outcomes
  induction outcomes with
  | nil => intro mid; rfl
  | cons o rest ih =>
    intro mid
    rw [exitAttempts]
    cases h : o.fillDuringWait with
    | some px => simp [h, oneLiveOrder]
    | none => simpa [h, oneLiveOrder] using ih (mid - inc)

theorem entryAttempts_clearPostCancel (inc maxBid : ℚ) :
    ∀ (outcomes : List AttemptOutcome) (bid : ℚ),
      entryAttempts inc maxBid (clearPostCancel outcomes) bid =
        entryAttempts inc maxBid outcomes bid := by
  intro outcomes
  induction outcomes with
  | nil => intro bid; rfl
  | cons o rest ih =>
    intro bid
    have hclear : clearPostCancel (o :: rest) =
        { o with fillAfterCancel := none } :: clearPostCancel rest := rfl
    have hfd : ({ o with fillAfterCancel := none } :
        AttemptOutcome).fillDuringWait = o.fillDuringWait := rfl
    rw [hclear, entryAttempts, entryAttempts]
    cases h : o.fillDuringWait with
    | some px => simp [hfd, h]
    | none =>
      have hre : (clearPostCancel rest).isEmpty = rest.isEmpty := by
        cases rest <;> rfl
      simp only [hfd, h, hre]
      by_cases hre2 : rest.isEmpty
      · simp [hre2]
      · simp only [hre2, Bool.false_eq_true, if_false]
        split
        · rw [ih (round05 (bid + inc))]
        · rfl

theorem exitAttempts_clearPostCancel (inc : ℚ) :
    ∀ (outcomes : List AttemptOutcome) (mid : ℚ),
      exitAttempts inc (clearPostCancel outcomes) mid =
        exitAttempts inc outcomes mid := by
  intro outcomes
  induction outcomes with
  | nil => intro mid; rfl
  | cons o rest ih =>
    intro mid
    have hclear : clearPostCancel (o :: rest) =
        { o with fillAfterCancel := none } :: clearPostCancel rest := rfl
    have hfd : ({ o with fillAfterCancel := none } :
        AttemptOutcome).fillDuringWait = o.fillDuringWait := rfl
    rw [hclear, exitAttempts, exitAttempts]
    cases h : o.fillDuringWait with
    | some px => simp [hfd, h]
    | none =>
      simp only [hfd, h]
      rw [ih (mid - inc)]

/-- C2 counterexample: in the entry loop, an order that fills right after
its cancel was requested (broker trace c2Outcomes, fill at 4.10 visible
post-cancel on the first attempt) is not treated as a fill: the loop
submits four further orders and reports no fill, so the fill observed after
the cancel request is not authoritative and fill status is not re-checked
before the next submission. -/
theorem c2_counterexample :
    c2Outcomes.head? = some { fillDuringWait := none,
                              fillAfterCancel := some (41/10) } ∧
    (entryAttempts (1/20) (4 + 1/4) c2Outcomes 4).fillPrice = none ∧
    (entryAttempts (1/20) (4 + 1/4) c2Outcomes 4).submitted.length = 5 := by
  refine ⟨rfl, ?_, ?_⟩ <;>
    · simp [c2Outcomes, entryAttempts, round05, round_eq]
      norm_num

/-- C2 (amended): per trade, a cancel request for the current order is
always issued before the next attempt order is submitted, in both the
entry loop and the exit loop; but neither loop re-checks fill status after
requesting the cancel -- the result of either loop is unchanged when every
post-cancel fill report is erased from the broker trace. -/
theorem c2_cancel_ordering_and_postcancel_blindness (inc maxBid : ℚ)
    (outcomes : List AttemptOutcome) (bid mid : ℚ) :
    oneLiveOrder (entryAttempts inc maxBid outcomes bid).events false = true ∧
    oneLiveOrder (exitAttempts inc outcomes mid).events false = true ∧
    entryAttempts inc maxBid (clearPostCancel outcomes) bid =
      entryAttempts inc maxBid outcomes bid ∧
    exitAttempts inc (clearPostCancel outcomes) mid =
      exitAttempts inc outcomes mid :=
  ⟨entry_events_one_live inc maxBid outcomes bid,
   exit_events_one_live inc outcomes mid,
   entryAttempts_clearPostCancel inc maxBid outcomes bid,
   exitAttempts_clearPostCancel inc outcomes mid⟩

theorem saveTrade_mem_self (db : List Trade) (t : Trade) :
    t ∈ saveTrade db t := by
  unfold saveTrade
  by_cases h : db.any (fun u => u.trade_id = t.trade_id)
  · rw [if_pos h]
    rw [List.any_eq_true] at h
    obtain ⟨u, hu, hid⟩ := h
    refine List.mem_map.mpr ⟨u, hu, ?_⟩
    simp only [decide_eq_true_eq] at hid
    simp [hid]
  · rw [if_neg h]
    exact List.mem_append_right _ (List.mem_singleton.mpr rfl)

theorem saveTrade_mem (db : List Trade) (t u : Trade) (h : u ∈ saveTrade db t) :
    u ∈ db ∨ u = t := by
  unfold saveTrade at h
  by_cases hc : db.any (fun v => v.trade_id = t.trade_id)
  · rw [if_pos hc] at h
    obtain ⟨v, hv, hvu⟩ := List.mem_map.mp h
    by_cases hid : v.trade_id = t.trade_id
    · right
      rw [← hvu]
      simp [hid]
    · left
      rw [← hvu]
      simpa [hid] using hv
  · rw [if_neg hc] at h
    rcases List.mem_append.mp h with h1 | h1
    · exact Or.inl h1
    · exact Or.inr (List.mem_singleton.mp h1)

theorem entryFinish_success_fields (cfg : Config) (t : Trade) (mid : ℚ)
    (r : LoopResult) (h : (entryFinish cfg t mid r).success = true) :
    (entryFinish cfg t mid r).trade.status = "ACTIVE" ∧
    (entryFinish cfg t mid r).trade.trade_id = t.trade_id := by
  cases hf : r.fillPrice with
  | none => rw [entryFinish, hf] at h; exact absurd h (by simp)
  | some px => rw [entryFinish, hf]; exact ⟨rfl, rfl⟩

theorem placeCalendarSpreadOrder_success_fields (cfg : Config) (t : Trade)
    (mid : ℚ) (outs : List AttemptOutcome)
    (h : (placeCalendarSpreadOrder cfg t mid outs).success = true) :
    (placeCalendarSpreadOrder cfg t mid outs).trade.status = "ACTIVE" ∧
    (placeCalendarSpreadOrder cfg t mid outs).trade.trade_id = t.trade_id :=
  entryFinish_success_fields cfg t mid _ h

theorem placeProfitTargetOrder_fields (cfg : Config) (st : SysState)
    (t : Trade) (oid : ℕ) (obs : Option String) :
    (placeProfitTargetOrder cfg st t oid obs).2.1.trade_id = t.trade_id ∧
    (placeProfitTargetOrder cfg st t oid obs).2.1.status = t.status := by
  unfold placeProfitTargetOrder
  by_cases h : obs = some "Submitted" ∨ obs = some "PreSubmitted" <;>
    simp [h]

/-- C5: the armed profit-target GTC limit price is the entry debit times
(1 + profit_target_pct), truncated DOWN to the $0.10 price grid -- in
particular a $4.00 debit with profit_target_pct = 0.50 yields exactly
$6.00 -- and profit_target_status becomes PLACED exactly when the broker
confirms the order (Submitted or PreSubmitted observed); an unconfirmed
placement changes nothing and does not fail the entry, which still saves
the ACTIVE trade and logs TRADE_PLACED. -/
theorem c5_profit_target_price_and_placement :
    (∀ e pct : ℚ, profitTargetLimitPrice e pct =
      (pyTrunc (e * (1 + pct) * 10) : ℚ)/10) ∧
    (∀ e pct : ℚ, 0 ≤ e → 0 ≤ pct →
      (∃ m : ℤ, profitTargetLimitPrice e pct = (m : ℚ)/10) ∧
      profitTargetLimitPrice e pct ≤ e * (1 + pct)) ∧
    profitTargetLimitPrice 4 (1/2) = 6 ∧
    (∀ cfg st t oid obs,
      ((placeProfitTargetOrder cfg st t oid obs).2.2 = true ↔
        (obs = some "Submitted" ∨ obs = some "PreSubmitted")) ∧
      ((placeProfitTargetOrder cfg st t oid obs).2.2 = true →
        (placeProfitTargetOrder cfg st t oid obs).2.1.profit_target_status
            = "PLACED" ∧
        (placeProfitTargetOrder cfg st t oid obs).2.1.profit_target_price
            = profitTargetLimitPrice t.entry_credit cfg.profit_target_pct) ∧
      ((placeProfitTargetOrder cfg st t oid obs).2.2 = false →
        (placeProfitTargetOrder cfg st t oid obs).1 = st ∧
        (placeProfitTargetOrder cfg st t oid obs).2.1 = t)) ∧
    (∀ cfg st trade0 o,
      (placeCalendarSpreadOrder cfg trade0 o.spreadMid o.outcomes).success
          = true →
      ("TRADE_PLACED", true) ∈ (executeEntryOrderPhase cfg st trade0 o).log ∧
      ∃ t ∈ (executeEntryOrderPhase cfg st trade0 o).db,
        t.trade_id = trade0.trade_id ∧ t.status = "ACTIVE") := by
  refine ⟨?_, ?_, ?_, ?_, ?_⟩
  · intro e pct
    unfold profitTargetLimitPrice
    have h : e + e * pct = e * (1 + pct) := by ring
    rw [h]
  · intro e pct he hpct
    constructor
    · exact ⟨pyTrunc ((e + e * pct) * 10), rfl⟩
    · unfold profitTargetLimitPrice pyTrunc
      have hx : 0 ≤ (e + e * pct) * 10 := by positivity
      rw [if_pos hx]
      have hfl : ((⌊(e + e * pct) * 10⌋ : ℤ) : ℚ) ≤ (e + e * pct) * 10 :=
        Int.floor_le _
      have h2 : e + e * pct = e * (1 + pct) := by ring
      rw [h2] at hfl ⊢
      linarith
  · unfold profitTargetLimitPrice pyTrunc
    norm_num
  · intro cfg st t oid obs
    unfold placeProfitTargetOrder
    by_cases h : obs = some "Submitted" ∨ obs = some "PreSubmitted" <;>
      simp [h]
  · intro cfg st trade0 o hsucc
    have hfields := placeCalendarSpreadOrder_success_fields cfg trade0
      o.spreadMid o.outcomes hsucc
    unfold executeEntryOrderPhase
    rw [if_pos hsucc]
    have hpt := placeProfitTargetOrder_fields cfg (addSms st "notify_trade_attempt")
      (placeCalendarSpreadOrder cfg trade0 o.spreadMid o.outcomes).trade
      o.ptOrderId o.ptObs
    constructor
    · simp [addSms, addLog, persist]
    · refine ⟨(placeProfitTargetOrder cfg (addSms st "notify_trade_attempt")
        (placeCalendarSpreadOrder cfg trade0 o.spreadMid o.outcomes).trade
        o.ptOrderId o.ptObs).2.1, ?_, ?_, ?_⟩
      · simp only [addSms, addLog, persist]
        exact saveTrade_mem_self _ _
      · rw [hpt.1, hfields.2]
      · rw [hpt.2, hfields.1]

theorem checkProfitTargetFill_no_match (st : SysState) (oid : ℕ) (px : ℚ)
    (hnone : ∀ u ∈ getActiveTrades st.db,
      ¬ (u.profit_target_order_id = oid ∧ u.profit_target_status = "PLACED")) :
    checkProfitTargetFill st oid px = (st, false) := by
  unfold checkProfitTargetFill
  have hfind : (getActiveTrades st.db).find? (fun t =>
      t.profit_target_order_id = oid ∧ t.profit_target_status = "PLACED")
      = none := by
    rw [List.find?_eq_none]
    intro u hu
    simpa using hnone u hu
  rw [hfind]

/-- C4: delivering the same Filled order-status event twice for a profit
target order is idempotent: after the first delivery closed the matching
trade (now CLOSED with profit_target_status FILLED, hence outside the
active set and no longer PLACED), the second delivery finds no match and
changes nothing.  Hypothesis: at most one active trade carries this
profit-target order id in PLACED state. -/
theorem c4_pt_fill_idempotent (st : SysState) (oid : ℕ) (px : ℚ)
    (huniq : ∀ u ∈ getActiveTrades st.db, ∀ v ∈ getActiveTrades st.db,
      u.profit_target_order_id = oid → u.profit_target_status = "PLACED" →
      v.profit_target_order_id = oid → v.profit_target_status = "PLACED" →
      u = v) :
    checkProfitTargetFill (checkProfitTargetFill st oid px).1 oid px =
      ((checkProfitTargetFill st oid px).1, false) := by
  cases hfind : (getActiveTrades st.db).find? (fun t =>
      t.profit_target_order_id = oid ∧ t.profit_target_status = "PLACED") with
  | none =>
    have h1 : checkProfitTargetFill st oid px = (st, false) := by
      unfold checkProfitTargetFill
      rw [hfind]
    rw [h1]
    exact h1
  | some t =>
    have ht_act : t ∈ getActiveTrades st.db := List.mem_of_find?_eq_some hfind
    have ht_pred := List.find?_some hfind
    simp only [decide_eq_true_eq] at ht_pred
    have ht_db : t ∈ st.db := (List.mem_filter.mp ht_act).1
    have h1 : (checkProfitTargetFill st oid px).1 =
        addSms (addLog (persist st (closeViaProfitTarget t px))
          "PROFIT_TARGET_HIT" true) "sms_pt_hit" := by
      unfold checkProfitTargetFill
      rw [hfind]
    have hdb1 : ((checkProfitTargetFill st oid px).1).db =
        saveTrade st.db (closeViaProfitTarget t px) := by
      rw [h1]
      rfl
    refine checkProfitTargetFill_no_match _ oid px ?_
    intro u hu
    rw [hdb1] at hu
    have hu2 := List.mem_filter.mp hu
    have hu_status : u.status = "PENDING" ∨ u.status = "ACTIVE" ∨
        u.status = "MANUAL_CONTROL" := by
      simpa using hu2.2
    have hany : st.db.any
        (fun v => v.trade_id = (closeViaProfitTarget t px).trade_id) = true := by
      rw [List.any_eq_true]
      exact ⟨t, ht_db, by simp [closeViaProfitTarget]⟩
    have hu_mem : u ∈ st.db.map (fun v =>
        if v.trade_id = (closeViaProfitTarget t px).trade_id
        then closeViaProfitTarget t px else v) := by
      have := hu2.1
      unfold saveTrade at this
      rwa [if_pos hany] at this
    obtain ⟨v, hv, hvu⟩ := List.mem_map.mp hu_mem
    rintro ⟨hpoid, hpstat⟩
    by_cases hid : v.trade_id = (closeViaProfitTarget t px).trade_id
    · rw [if_pos hid] at hvu
      rw [← hvu] at hu_status
      simp [closeViaProfitTarget] at hu_status
    · rw [if_neg hid] at hvu
      have hv_act : v ∈ getActiveTrades st.db := by
        refine List.mem_filter.mpr ⟨hv, ?_⟩
        rw [hvu]
        simpa using hu_status
      have huv : v = t := by
        refine huniq v hv_act t ht_act ?_ ?_ ht_pred.1 ht_pred.2
        · rw [hvu]; exact hpoid
        · rw [hvu]; exact hpstat
      apply hid
      rw [huv]
      simp [closeViaProfitTarget]

/-- C4 witness: the double delivery on the concrete one-trade store. -/
theorem c4_pt_fill_idempotent_witness :
    checkProfitTargetFill (checkProfitTargetFill stW4 100 (-6)).1 100 (-6) =
      ((checkProfitTargetFill stW4 100 (-6)).1, false) :=
  c4_pt_fill_idempotent stW4 100 (-6)
    (by
      intro u hu v hv h1 h2 h3 h4
      have hu1 : u = tW4 := by
        simpa [stW4, getActiveTrades, tW4, tW, mkPendingTrade] using hu
      have hv1 : v = tW4 := by
        simpa [stW4, getActiveTrades, tW4, tW, mkPendingTrade] using hv
      rw [hu1, hv1])

theorem exitAttempts_fillPrice_none (inc : ℚ) :
    ∀ (outcomes : List AttemptOutcome) (mid : ℚ),
      (∀ o ∈ outcomes, o.fillDuringWait = none) →
      (exitAttempts inc outcomes mid).fillPrice = none := by
  intro outcomes
  induction outcomes with
  | nil => intro mid _; rfl
  | cons o rest ih =>
    intro mid hall
    rw [exitAttempts]
    have ho := hall o (List.mem_cons_self o rest)
    rw [ho]
    exact ih (mid - inc) (fun u hu => hall u (List.mem_cons_of_mem o hu))

/-- C10: whenever close_calendar_position fails after cancelling a standing
PLACED profit-target order -- market value unavailable, contract details
timing out, or every closing attempt unfilled -- it returns false and the
store is left holding the trade with status still ACTIVE but
profit_target_status CANCELLED: the cancellation was persisted before the
close was attempted and is not rolled back. -/
theorem c10_failed_close_keeps_active_with_cancelled_pt (cfg : Config)
    (st : SysState) (t : Trade) (reason : String) (oracle : CloseOracle)
    (hstatus : t.status = "ACTIVE")
    (hoid : 0 < t.profit_target_order_id)
    (hpt : t.profit_target_status = "PLACED")
    (hfail : closeRunFails oracle) :
    closeCalendarPosition cfg st t reason oracle =
      (persist st { t with profit_target_status := "CANCELLED" }, false) ∧
    ({ t with profit_target_status := "CANCELLED" } : Trade).status
      = "ACTIVE" ∧
    ({ t with profit_target_status := "CANCELLED" } : Trade) ∈
      (persist st { t with profit_target_status := "CANCELLED" }).db ∧
    ({ t with profit_target_status := "CANCELLED" } : Trade) ∈
      (persist st { t with profit_target_status := "CANCELLED" }).saves := by
  have hcond : 0 < t.profit_target_order_id ∧
      t.profit_target_status = "PLACED" := ⟨hoid, hpt⟩
  refine ⟨?_, by simpa using hstatus, ?_, ?_⟩
  · cases oracle with
    | noMarketValue =>
      simp only [closeCalendarPosition, cancelPTRecord, if_pos hcond]
    | contractTimeout =>
      simp only [closeCalendarPosition, cancelPTRecord, if_pos hcond]
    | noMarketValue2 =>
      simp only [closeCalendarPosition, cancelPTRecord, if_pos hcond]
    | attempts mid outcomes =>
      have hnone := exitAttempts_fillPrice_none cfg.price_increment outcomes
        mid hfail
      simp only [closeCalendarPosition, cancelPTRecord, if_pos hcond, hnone]
  · exact saveTrade_mem_self _ _
  · exact List.mem_append_right _ (List.mem_singleton.mpr rfl)

/-- C10 witness: a failing close (no market value) of the concrete ACTIVE
trade with a PLACED profit-target order. -/
theorem c10_failed_close_witness :
    closeCalendarPosition defaultConfig stW4 tW4 "Manual close"
        CloseOracle.noMarketValue =
      (persist stW4 { tW4 with profit_target_status := "CANCELLED" },
        false) ∧
    ({ tW4 with profit_target_status := "CANCELLED" } : Trade).status
      = "ACTIVE" ∧
    ({ tW4 with profit_target_status := "CANCELLED" } : Trade) ∈
      (persist stW4 { tW4 with profit_target_status := "CANCELLED" }).db ∧
    ({ tW4 with profit_target_status := "CANCELLED" } : Trade) ∈
      (persist stW4 { tW4 with profit_target_status := "CANCELLED" }).saves :=
  c10_failed_close_keeps_active_with_cancelled_pt defaultConfig stW4 tW4
    "Manual close" CloseOracle.noMarketValue rfl (by decide) rfl trivial

theorem entryAttempts_fillPrice_none (inc maxBid : ℚ) :
    ∀ (outcomes : List AttemptOutcome) (bid : ℚ),
      (∀ o ∈ outcomes, o.fillDuringWait = none) →
      (entryAttempts inc maxBid outcomes bid).fillPrice = none := by
  intro outcomes
  induction outcomes with
  | nil => intro bid _; rfl
  | cons o rest ih =>
    intro bid hall
    rw [entryAttempts]
    have ho := hall o (List.mem_cons_self o rest)
    rw [ho]
    by_cases hre : rest.isEmpty
    · simp [hre]
    · simp only [hre, Bool.false_eq_true, if_false]
      split
      · exact ih (round05 (bid + inc))
          (fun u hu => hall u (List.mem_cons_of_mem o hu))
      · rfl

/-- C6 counterexample: a full entry run whose five attempts all go unfilled
marks the in-memory trade CANCELLED and logs ORDER_FAILED, but writes
nothing to the Position Store: starting from the empty store, the trades
table and the save history are still empty afterwards, so no CANCELLED
record was persisted. -/
theorem c6_counterexample :
    (placeCalendarSpreadOrder defaultConfig tW c6Oracle.spreadMid
      c6Oracle.outcomes).trade.status = "CANCELLED" ∧
    (executeEntryOrderPhase defaultConfig initState tW c6Oracle).db = [] ∧
    (executeEntryOrderPhase defaultConfig initState tW c6Oracle).saves = [] ∧
    ("ORDER_FAILED", false) ∈
      (executeEntryOrderPhase defaultConfig initState tW c6Oracle).log := by
  have hall : ∀ o ∈ c6Oracle.outcomes, o.fillDuringWait = none := by
    intro o ho
    simp only [c6Oracle, List.mem_replicate] at ho
    rw [ho.2]
  have hnone := entryAttempts_fillPrice_none defaultConfig.price_increment
    (c6Oracle.spreadMid + defaultConfig.max_spread_premium)
    c6Oracle.outcomes c6Oracle.spreadMid hall
  have hsucc : (placeCalendarSpreadOrder defaultConfig tW c6Oracle.spreadMid
      c6Oracle.outcomes).success = false := by
    unfold placeCalendarSpreadOrder entryFinish
    rw [hnone]
  have hstat : (placeCalendarSpreadOrder defaultConfig tW c6Oracle.spreadMid
      c6Oracle.outcomes).trade.status = "CANCELLED" := by
    unfold placeCalendarSpreadOrder entryFinish
    rw [hnone]
  refine ⟨hstat, ?_, ?_, ?_⟩ <;>
    · unfold executeEntryOrderPhase
      simp [hsucc, addSms, addLog, initState]

/-- C6 (amended): if the entry order never fills within the attempt budget,
the trade transitions to CANCELLED in memory and the system logs
ORDER_FAILED and sends the failure SMS, but the CANCELLED trade record is
NOT persisted to the Position Store: the trades table and the save history
are left exactly as they were (save_trade is only reached on the success
path). -/
theorem c6_entry_exhaustion_not_persisted (cfg : Config) (st : SysState)
    (trade0 : Trade) (o : EntryOracle)
    (hall : ∀ u ∈ o.outcomes, u.fillDuringWait = none) :
    (placeCalendarSpreadOrder cfg trade0 o.spreadMid o.outcomes).trade.status
      = "CANCELLED" ∧
    (executeEntryOrderPhase cfg st trade0 o).db = st.db ∧
    (executeEntryOrderPhase cfg st trade0 o).saves = st.saves ∧
    (executeEntryOrderPhase cfg st trade0 o).log =
      st.log ++ [("ORDER_FAILED", false)] ∧
    (executeEntryOrderPhase cfg st trade0 o).sms =
      st.sms ++ ["notify_trade_attempt", "sms_entry_failed"] := by
  have hnone := entryAttempts_fillPrice_none cfg.price_increment
    (o.spreadMid + cfg.max_spread_premium) o.outcomes o.spreadMid hall
  have hsucc : (placeCalendarSpreadOrder cfg trade0 o.spreadMid
      o.outcomes).success = false := by
    unfold placeCalendarSpreadOrder entryFinish
    rw [hnone]
  have hstat : (placeCalendarSpreadOrder cfg trade0 o.spreadMid
      o.outcomes).trade.status = "CANCELLED" := by
    unfold placeCalendarSpreadOrder entryFinish
    rw [hnone]
  refine ⟨hstat, ?_, ?_, ?_, ?_⟩ <;>
    · unfold executeEntryOrderPhase
      simp [hsucc, addSms, addLog]

/-- C6 witness: the amended theorem at the concrete all-unfilled oracle
against the empty store. -/
theorem c6_entry_exhaustion_witness :
    (placeCalendarSpreadOrder defaultConfig tW c6Oracle.spreadMid
      c6Oracle.outcomes).trade.status = "CANCELLED" ∧
    (executeEntryOrderPhase defaultConfig initState tW c6Oracle).db
      = initState.db ∧
    (executeEntryOrderPhase defaultConfig initState tW c6Oracle).saves
      = initState.saves ∧
    (executeEntryOrderPhase defaultConfig initState tW c6Oracle).log =
      initState.log ++ [("ORDER_FAILED", false)] ∧
    (executeEntryOrderPhase defaultConfig initState tW c6Oracle).sms =
      initState.sms ++ ["notify_trade_attempt", "sms_entry_failed"] :=
  c6_entry_exhaustion_not_persisted defaultConfig initState tW c6Oracle
    (by
      intro u hu
      simp only [c6Oracle, List.mem_replicate] at hu
      rw [hu.2])

theorem find?_filter_ne (l : List BrokerPos) (k k2 : LegKey) (hne : k2 ≠ k) :
    (l.filter (fun p => p.key ≠ k)).find? (fun p => p.key = k2) =
      l.find? (fun p => p.key = k2) := by
  induction l with
  | nil => rfl
  | cons p rest ih =>
    by_cases hpk : p.key = k
    · have h1 : decide (p.key ≠ k) = false := by simp [hpk]
      have h2 : ¬ ((fun q : BrokerPos => decide (q.key = k2)) p = true) := by
        simp only [decide_eq_true_eq]
        rw [hpk]
        exact fun h => hne h.symm
      rw [List.filter_cons, h1]
      simp only [Bool.false_eq_true, if_false]
      rw [ih, @List.find?_cons_of_neg BrokerPos
        (fun q => decide (q.key = k2)) p rest h2]
    · have h1 : decide (p.key ≠ k) = true := by simp [hpk]
      rw [List.filter_cons, h1]
      rw [if_pos rfl]
      by_cases h2 : p.key = k2
      · have h2t : (fun q : BrokerPos => decide (q.key = k2)) p = true := by
          simp [h2]
        rw [@List.find?_cons_of_pos BrokerPos (fun q => decide (q.key = k2))
          p (List.filter (fun q => decide (q.key ≠ k)) rest) h2t,
          @List.find?_cons_of_pos BrokerPos (fun q => decide (q.key = k2))
          p rest h2t]
      · have h2f : ¬ ((fun q : BrokerPos => decide (q.key = k2)) p = true) := by
          simp [h2]
        rw [@List.find?_cons_of_neg BrokerPos (fun q => decide (q.key = k2))
          p (List.filter (fun q => decide (q.key ≠ k)) rest) h2f,
          @List.find?_cons_of_neg BrokerPos (fun q => decide (q.key = k2))
          p rest h2f]
        exact ih

theorem find?_filter_self (l : List BrokerPos) (k : LegKey) :
    (l.filter (fun p => p.key ≠ k)).find? (fun p => p.key = k) = none := by
  rw [List.find?_eq_none]
  intro x hx
  have h1 := (List.mem_filter.mp hx).2
  simp only [decide_eq_true_eq] at h1 ⊢
  exact h1

theorem reconcile_touches_no_record (cfg : Config) (st : SysState)
    (snap : List BrokerPos) :
    (dailyPositionReconciliation cfg st snap).1.db = st.db ∧
    (dailyPositionReconciliation cfg st snap).1.saves = st.saves := by
  constructor <;>
    · simp only [dailyPositionReconciliation]
      split_ifs <;> rfl

/-- C8: when the four expected legs of a tracked active trade (pairwise
distinct keys) are present in the broker snapshot with exactly matching
signed quantities, reconciliation reports zero discrepancies for that
trade; removing exactly one leg from the snapshot produces exactly one
missing-leg discrepancy naming that leg; and the reconciliation routine
never modifies the trades table or writes any trade record. -/
theorem c8_reconciliation_reports (cfg : Config) (st : SysState) (t : Trade)
    (snapshot : List BrokerPos)
    (hkeys : List.Pairwise (fun a b => a.1 ≠ b.1) (expectedLegs cfg t))
    (hpresent : ∀ leg ∈ expectedLegs cfg t,
      snapshot.find? (fun p => p.key = leg.1) = some ⟨leg.1, leg.2.1⟩) :
    tradeDiscrepancies cfg snapshot t = [] ∧
    (∀ leg ∈ expectedLegs cfg t,
      tradeDiscrepancies cfg (snapshot.filter (fun p => p.key ≠ leg.1)) t =
        [leg.2.2 ++ ": Missing from IBKR"]) ∧
    (∀ snap : List BrokerPos,
      (dailyPositionReconciliation cfg st snap).1.db = st.db ∧
      (dailyPositionReconciliation cfg st snap).1.saves = st.saves) := by
  have hp := hpresent
  simp only [expectedLegs, List.mem_cons, List.not_mem_nil, or_false,
    forall_eq_or_imp, forall_eq] at hp
  obtain ⟨hp1, hp2, hp3, hp4⟩ := hp
  simp only [expectedLegs, List.pairwise_cons, List.mem_cons,
    List.not_mem_nil, or_false, forall_eq_or_imp, forall_eq, and_true]
    at hkeys
  obtain ⟨⟨hk12, hk13, hk14⟩, ⟨hk23, hk24⟩, hk34, -, -⟩ := hkeys
  refine ⟨?_, ?_, fun snap => reconcile_touches_no_record cfg st snap⟩
  · unfold tradeDiscrepancies
    simp only [expectedLegs, List.filterMap_cons, List.filterMap_nil]
    rw [hp1, hp2, hp3, hp4]
    norm_num
  · intro leg hleg
    simp only [expectedLegs, List.mem_cons, List.not_mem_nil, or_false]
      at hleg
    unfold tradeDiscrepancies
    simp only [expectedLegs, List.filterMap_cons, List.filterMap_nil]
    rcases hleg with h | h | h | h <;> subst h
    · rw [find?_filter_self,
        find?_filter_ne _ _ _ (fun hx => hk12 hx.symm),
        find?_filter_ne _ _ _ (fun hx => hk13 hx.symm),
        find?_filter_ne _ _ _ (fun hx => hk14 hx.symm),
        hp2, hp3, hp4]
      norm_num
    · rw [find?_filter_ne _ _ _ hk12, find?_filter_self,
        find?_filter_ne _ _ _ (fun hx => hk23 hx.symm),
        find?_filter_ne _ _ _ (fun hx => hk24 hx.symm),
        hp1, hp3, hp4]
      norm_num
    · rw [find?_filter_ne _ _ _ hk13, find?_filter_ne _ _ _ hk23,
        find?_filter_self,
        find?_filter_ne _ _ _ (fun hx => hk34 hx.symm),
        hp1, hp2, hp4]
      norm_num
    · rw [find?_filter_ne _ _ _ hk14, find?_filter_ne _ _ _ hk24,
        find?_filter_ne _ _ _ hk34, find?_filter_self,
        hp1, hp2, hp3]
      norm_num

/-- C8 witness: the reconciliation report on the concrete trade tW4 and the
matching four-leg snapshot. -/
theorem c8_reconciliation_reports_witness :
    tradeDiscrepancies defaultConfig snapW tW4 = [] ∧
    (∀ leg ∈ expectedLegs defaultConfig tW4,
      tradeDiscrepancies defaultConfig
          (snapW.filter (fun p => p.key ≠ leg.1)) tW4 =
        [leg.2.2 ++ ": Missing from IBKR"]) ∧
    (∀ snap : List BrokerPos,
      (dailyPositionReconciliation defaultConfig stW4 snap).1.db = stW4.db ∧
      (dailyPositionReconciliation defaultConfig stW4 snap).1.saves
        = stW4.saves) :=
  c8_reconciliation_reports defaultConfig stW4 tW4 snapW (by decide)
    (by decide)

/-- C9 counterexample: a concrete ghost-strike conflict -- the candidate
short put 5005 equals the long put strike of the last-week trade -- on
which the move policy leaves both strikes unchanged: the adjusted strike
does not differ from the conflicting strike, because the
adjacent-selection body of adjust_ghost_strike is unreachable (its chain
fetch calls an undefined method and the except handler returns the input
strike). -/
theorem c9_counterexample :
    (if c9LastWeek.long_put_strike ≠ 0 then c9LastWeek.long_put_strike
      else c9LastWeek.put_strike) = 5005 ∧
    ghostMoveAdjust (1/5) c9Chain 5005 5210 c9LastWeek = (5005, 5210) ∧
    ((5005:ℚ) ≠ 5005) = False := by
  refine ⟨by norm_num [c9LastWeek], ?_, by simp⟩
  simp [ghostMoveAdjust, adjustGhostStrike]

/-- C9 (code_bug): adjust_ghost_strike never moves a strike.  Its body
calls self.get_option_chain_for_expiry, which is defined nowhere in the
repository, so every call raises AttributeError and returns the input
strike through the except handler; the ghost-move branch of
execute_calendar_spread_entry therefore returns both candidate strikes
unchanged for every input, the adjacent-strike delta selection the spec
describes is dead code, and its guarantee that the adjusted strike
differs from the conflicting strike cannot hold. -/
theorem c9_ghost_move_is_noop :
    (∀ (td : ℚ) (chain : List ChainQuote) (strike : ℚ) (ot : String),
      adjustGhostStrike td chain strike ot = strike) ∧
    (∀ (td : ℚ) (chain : List ChainQuote) (ps cs : ℚ) (lw : Trade),
      ghostMoveAdjust td chain ps cs lw = (ps, cs)) := by
  refine ⟨fun td chain strike ot => rfl, fun td chain ps cs lw => ?_⟩
  simp [ghostMoveAdjust, adjustGhostStrike]


theorem entryStateX_eval : entryStateX =
    { db := [tradeX1], saves := [tradeX1, tradeX1],
      log := [("TRADE_PLACED", true)],
      sms := ["notify_trade_attempt", "sms_pt_active", "sms_entry_filled"] } := by
  have harg : (4:ℚ) * (1 + defaultConfig.profit_target_pct) = 6 := by
    norm_num [defaultConfig]
  have hround6 : round05 6 = 6 := by
    norm_num [round05, round_eq]
  have hpt : profitTargetLimitPrice 4 defaultConfig.profit_target_pct = 6 := by
    norm_num [profitTargetLimitPrice, pyTrunc, defaultConfig]
  simp only [entryStateX, applyOp, executeEntryOrderPhase,
    placeCalendarSpreadOrder, entryOracleX, entryAttempts, entryFinish,
    placeProfitTargetOrder, mkPendingTrade, initState, persist, addSms,
    addLog, saveTrade, harg, hround6, hpt]
  norm_num [tradeX1]

theorem gtcStateX_eval : gtcStateX =
    { db := [{ tradeX1 with profit_target_status := "APICANCELLED" }],
      saves := [tradeX1, tradeX1,
        { tradeX1 with profit_target_status := "APICANCELLED" }],
      log := [("TRADE_PLACED", true)],
      sms := ["notify_trade_attempt", "sms_pt_active", "sms_entry_filled",
        "sms_gtc_alert"] } := by
  rw [show gtcStateX = applyOp defaultConfig entryStateX
      (Op.gtcCheck gtcStatusesX) from rfl, entryStateX_eval]
  decide

theorem closeStateX1_eval : closeStateX1 =
    { db := [tradeX3], saves := [tradeX1, tradeX1, tradeX2, tradeX3],
      log := [("TRADE_PLACED", true)],
      sms := ["notify_trade_attempt", "sms_pt_active", "sms_entry_filled",
        "sms_position_closed"] } := by
  have habs : |(-6:ℚ)| = 6 := by norm_num
  rw [show closeStateX1 = applyOp defaultConfig entryStateX
      (Op.closeCmd "CAL_X" "Manual close via web interface"
        (CloseOracle.attempts 6 [{ fillDuringWait := some (-6) }])) from rfl,
    entryStateX_eval]
  simp only [applyOp, getTradeById, closeCalendarPosition, cancelPTRecord,
    closeFillRecord, exitAttempts, persist, addSms, saveTrade, habs]
  norm_num [tradeX1, tradeX2, tradeX3, List.find?]

theorem closeStateX2_eval : closeStateX2 =
    { db := [tradeX4], saves := [tradeX1, tradeX1, tradeX2, tradeX3, tradeX4],
      log := [("TRADE_PLACED", true)],
      sms := ["notify_trade_attempt", "sms_pt_active", "sms_entry_filled",
        "sms_position_closed", "sms_position_closed"] } := by
  have habs : |(-(11/2):ℚ)| = 11/2 := by norm_num
  have hne : ("CANCELLED" = "PLACED") = False := by decide
  rw [show closeStateX2 = applyOp defaultConfig closeStateX1
      (Op.closeCmd "CAL_X" "Manual close via web interface"
        (CloseOracle.attempts (11/2)
          [{ fillDuringWait := some (-(11/2)) }])) from rfl,
    closeStateX1_eval]
  norm_num [applyOp, getTradeById, closeCalendarPosition, cancelPTRecord,
    closeFillRecord, exitAttempts, persist, addSms, saveTrade, habs,
    List.find?, tradeX1, tradeX2, tradeX3, tradeX4, hne]

theorem reach_entryStateX : Reachable defaultConfig entryStateX :=
  Reachable.step initState
    (Op.entry "CAL_X" "2026-10-05" "21" "28" 5000 5100 5000 5100 entryOracleX)
    Reachable.init (by norm_num [Op.wf, entryOracleX])

theorem reach_gtcStateX : Reachable defaultConfig gtcStateX :=
  Reachable.step entryStateX (Op.gtcCheck gtcStatusesX) reach_entryStateX
    trivial

theorem reach_closeStateX1 : Reachable defaultConfig closeStateX1 :=
  Reachable.step entryStateX
    (Op.closeCmd "CAL_X" "Manual close via web interface"
      (CloseOracle.attempts 6 [{ fillDuringWait := some (-6) }]))
    reach_entryStateX trivial

theorem reach_closeStateX2 : Reachable defaultConfig closeStateX2 :=
  Reachable.step closeStateX1
    (Op.closeCmd "CAL_X" "Manual close via web interface"
      (CloseOracle.attempts (11/2) [{ fillDuringWait := some (-(11/2)) }]))
    reach_closeStateX1 trivial

/-- C7 counterexample: after a normal entry, a GTC status check that sees
the broker report ApiCancelled persists profit_target_status =
"APICANCELLED" -- a value outside the claimed five-element set -- in a
state reachable from the empty store. -/
theorem c7_counterexample :
    Reachable defaultConfig gtcStateX ∧
    "APICANCELLED" ∈ gtcStateX.db.map (fun t => t.profit_target_status) ∧
    "APICANCELLED" ∉ ["NONE", "PLACED", "FILLED", "CANCELLED", "REJECTED"] := by
  refine ⟨reach_gtcStateX, ?_, by decide⟩
  rw [gtcStateX_eval]
  decide

/-- C3 counterexample: a reachable trace in which trade CAL_X is closed by
a CLOSE_POSITION command (realized_pnl written as 2.00) and then re-closed
by a duplicate CLOSE_POSITION command (realized_pnl rewritten as 1.50):
realized_pnl is written twice, with different values, for one trade that
reached CLOSED. -/
theorem c3_counterexample :
    Reachable defaultConfig closeStateX2 ∧
    (closedSaves closeStateX2 "CAL_X").map (fun t => t.realized_pnl)
      = [2, 3/2] ∧
    ((2:ℚ) = 3/2) = False := by
  refine ⟨reach_closeStateX2, ?_, by norm_num⟩
  rw [closeStateX2_eval]
  have hAC : ("ACTIVE" = "CLOSED") = False := by decide
  have hCC : ("CLOSED" = "CLOSED") = True := by decide
  simp only [closedSaves, List.filter_cons, List.filter_nil,
    tradeX1, tradeX2, tradeX3, tradeX4, hAC, hCC, if_true, if_false,
    List.map_cons, List.map_nil]
  norm_num

theorem allRecords_addSms (st : SysState) (m : String) :
    allRecords (addSms st m) = allRecords st := rfl

theorem allRecords_addLog (st : SysState) (a : String) (b : Bool) :
    allRecords (addLog st a b) = allRecords st := rfl

theorem allRecords_persist (st : SysState) (t u : Trade)
    (hu : u ∈ allRecords (persist st t)) : u = t ∨ u ∈ allRecords st := by
  simp only [allRecords, persist] at hu
  rcases List.mem_append.mp hu with h | h
  · rcases saveTrade_mem st.db t u h with h1 | h1
    · exact Or.inr (List.mem_append_left _ h1)
    · exact Or.inl h1
  · rcases List.mem_append.mp h with h1 | h1
    · exact Or.inr (List.mem_append_right _ h1)
    · exact Or.inl (List.mem_singleton.mp h1)

theorem entryFinish_pt_fields (cfg : Config) (t : Trade) (mid : ℚ)
    (r : LoopResult) :
    (entryFinish cfg t mid r).trade.profit_target_status
        = t.profit_target_status ∧
    (entryFinish cfg t mid r).trade.profit_target_order_id
        = t.profit_target_order_id := by
  cases hf : r.fillPrice <;> simp [entryFinish, hf]

theorem placeOrder_pt_fields (cfg : Config) (t : Trade) (mid : ℚ)
    (outs : List AttemptOutcome) :
    (placeCalendarSpreadOrder cfg t mid outs).trade.profit_target_status
        = t.profit_target_status ∧
    (placeCalendarSpreadOrder cfg t mid outs).trade.profit_target_order_id
        = t.profit_target_order_id :=
  entryFinish_pt_fields cfg t mid _

theorem placePT_records (cfg : Config) (st : SysState) (t : Trade) (oid : ℕ)
    (obs : Option String) (u : Trade)
    (hu : u ∈ allRecords (placeProfitTargetOrder cfg st t oid obs).1) :
    u = (placeProfitTargetOrder cfg st t oid obs).2.1 ∨ u ∈ allRecords st := by
  by_cases h : obs = some "Submitted" ∨ obs = some "PreSubmitted"
  · simp only [placeProfitTargetOrder, if_pos h, allRecords_addSms] at hu ⊢
    rcases allRecords_persist _ _ _ hu with h1 | h1
    · exact Or.inl h1
    · exact Or.inr h1
  · simp only [placeProfitTargetOrder, if_neg h] at hu ⊢
    exact Or.inr hu

theorem placePT_trade_cases (cfg : Config) (st : SysState) (t : Trade)
    (oid : ℕ) (obs : Option String) :
    (placeProfitTargetOrder cfg st t oid obs).2.1 = t ∨
    (placeProfitTargetOrder cfg st t oid obs).2.1 =
      { t with
          profit_target_order_id := oid,
          profit_target_price :=
            profitTargetLimitPrice t.entry_credit cfg.profit_target_pct,
          profit_target_status := "PLACED" } := by
  by_cases h : obs = some "Submitted" ∨ obs = some "PreSubmitted"
  · exact Or.inr (by simp only [placeProfitTargetOrder, if_pos h])
  · exact Or.inl (by simp only [placeProfitTargetOrder, if_neg h])

theorem executeEntry_records (cfg : Config) (st : SysState) (t0 : Trade)
    (o : EntryOracle) (u : Trade)
    (hu : u ∈ allRecords (executeEntryOrderPhase cfg st t0 o)) :
    u ∈ allRecords st ∨
    ((placeCalendarSpreadOrder cfg t0 o.spreadMid o.outcomes).success = true ∧
      u = (placeProfitTargetOrder cfg (addSms st "notify_trade_attempt")
        (placeCalendarSpreadOrder cfg t0 o.spreadMid o.outcomes).trade
        o.ptOrderId o.ptObs).2.1) := by
  simp only [executeEntryOrderPhase] at hu
  by_cases hs :
      (placeCalendarSpreadOrder cfg t0 o.spreadMid o.outcomes).success = true
  · rw [if_pos hs] at hu
    rw [allRecords_addSms, allRecords_addLog] at hu
    rcases allRecords_persist _ _ _ hu with h | h
    · exact Or.inr ⟨hs, h⟩
    · by_cases hb : (placeProfitTargetOrder cfg
          (addSms st "notify_trade_attempt")
          (placeCalendarSpreadOrder cfg t0 o.spreadMid o.outcomes).trade
          o.ptOrderId o.ptObs).2.2 = true
      · rw [if_pos hb] at h
        rcases placePT_records cfg _ _ _ _ u h with h2 | h2
        · exact Or.inr ⟨hs, h2⟩
        · rw [allRecords_addSms] at h2
          exact Or.inl h2
      · rw [if_neg hb, allRecords_addSms] at h
        rcases placePT_records cfg _ _ _ _ u h with h2 | h2
        · exact Or.inr ⟨hs, h2⟩
        · rw [allRecords_addSms] at h2
          exact Or.inl h2
  · rw [if_neg hs] at hu
    rw [allRecords_addSms, allRecords_addLog, allRecords_addSms] at hu
    exact Or.inl hu

theorem entry_records_ok (cfg : Config) (st : SysState)
    (tid ed se le : String) (ps cs lps lcs : ℚ) (o : EntryOracle)
    (hoid : 0 < o.ptOrderId) (u : Trade)
    (hu : u ∈ allRecords (applyOp cfg st
      (Op.entry tid ed se le ps cs lps lcs o))) :
    u ∈ allRecords st ∨ recordOk u := by
  simp only [applyOp] at hu
  rcases executeEntry_records cfg st _ o u hu with h | ⟨hs, h⟩
  · exact Or.inl h
  · right
    rw [h]
    have hstat := (placeCalendarSpreadOrder_success_fields cfg
      (mkPendingTrade tid ed se le ps cs lps lcs) o.spreadMid o.outcomes hs).1
    have hNone : (placeCalendarSpreadOrder cfg
        (mkPendingTrade tid ed se le ps cs lps lcs)
        o.spreadMid o.outcomes).trade.profit_target_status = "NONE" := by
      rw [(placeOrder_pt_fields cfg (mkPendingTrade tid ed se le ps cs lps lcs)
        o.spreadMid o.outcomes).1]
      rfl
    rcases placePT_trade_cases cfg (addSms st "notify_trade_attempt")
        ((placeCalendarSpreadOrder cfg (mkPendingTrade tid ed se le ps cs lps lcs)
          o.spreadMid o.outcomes).trade) o.ptOrderId o.ptObs with hc | hc
    · rw [hc]
      refine ⟨⟨?_, ?_⟩, ?_⟩
      · rw [hNone]; decide
      · rw [hNone]; intro hx; exact absurd hx (by decide)
      · intro hcl
        rw [hstat] at hcl
        exact absurd hcl (by decide)
    · rw [hc]
      refine ⟨⟨(by decide : ("PLACED":String) ∈ ptStatusSet),
        fun hx => ⟨Or.inl hstat, hoid⟩⟩, ?_⟩
      intro hcl
      have hcl2 : (placeCalendarSpreadOrder cfg
          (mkPendingTrade tid ed se le ps cs lps lcs)
          o.spreadMid o.outcomes).trade.status = "CLOSED" := hcl
      rw [hstat] at hcl2
      exact absurd hcl2 (by decide)

theorem closeViaPT_recordOk (t : Trade) (px : ℚ) :
    recordOk (closeViaProfitTarget t px) :=
  ⟨⟨(by decide : ("FILLED":String) ∈ ptStatusSet),
    fun hx => absurd hx (by decide : ("FILLED":String) ≠ "PLACED")⟩,
   fun _ => rfl⟩

theorem ptFill_records_ok (cfg : Config) (st : SysState) (oid : ℕ) (px : ℚ)
    (u : Trade)
    (hu : u ∈ allRecords (applyOp cfg st (Op.ptFill oid px))) :
    u ∈ allRecords st ∨ recordOk u := by
  simp only [applyOp] at hu
  cases hfind : (getActiveTrades st.db).find? (fun t =>
      t.profit_target_order_id = oid ∧ t.profit_target_status = "PLACED") with
  | none =>
    have h1 : checkProfitTargetFill st oid px = (st, false) := by
      unfold checkProfitTargetFill
      rw [hfind]
    rw [h1] at hu
    exact Or.inl hu
  | some t =>
    have h1 : (checkProfitTargetFill st oid px).1 =
        addSms (addLog (persist st (closeViaProfitTarget t px))
          "PROFIT_TARGET_HIT" true) "sms_pt_hit" := by
      unfold checkProfitTargetFill
      rw [hfind]
    rw [h1, allRecords_addSms, allRecords_addLog] at hu
    rcases allRecords_persist _ _ _ hu with h | h
    · right; rw [h]; exact closeViaPT_recordOk t px
    · exact Or.inl h

theorem close_records_ok (cfg : Config) (st : SysState) (t : Trade)
    (reason : String) (oracle : CloseOracle) (ht : recordOk t) (u : Trade)
    (hu : u ∈ allRecords (closeCalendarPosition cfg st t reason oracle).1) :
    u ∈ allRecords st ∨ recordOk u := by
  have hok1 : recordOk (cancelPTRecord t) :=
    ⟨⟨(by decide : ("CANCELLED":String) ∈ ptStatusSet),
      fun hx => absurd hx (by decide : ("CANCELLED":String) ≠ "PLACED")⟩,
     fun hcl => ht.2 hcl⟩
  have hok2 : ∀ px : ℚ, recordOk (closeFillRecord (cancelPTRecord t) reason px) :=
    fun px =>
      ⟨⟨(by decide : ("CANCELLED":String) ∈ ptStatusSet),
        fun hx => absurd hx (by decide : ("CANCELLED":String) ≠ "PLACED")⟩,
       fun _ => rfl⟩
  have htne : ¬ (0 < t.profit_target_order_id ∧
      t.profit_target_status = "PLACED") →
      t.profit_target_status ≠ "PLACED" :=
    fun hc hp => hc ⟨(ht.1.2 hp).2, hp⟩
  have hok3 : ∀ px : ℚ, t.profit_target_status ≠ "PLACED" →
      recordOk (closeFillRecord t reason px) :=
    fun px hne => ⟨⟨ht.1.1, fun hx => absurd hx hne⟩, fun _ => rfl⟩
  cases oracle with
  | noMarketValue =>
    simp only [closeCalendarPosition] at hu
    by_cases hc : 0 < t.profit_target_order_id ∧
        t.profit_target_status = "PLACED"
    · simp only [if_pos hc] at hu
      rcases allRecords_persist _ _ _ hu with h | h
      · right; rw [h]; exact hok1
      · exact Or.inl h
    · simp only [if_neg hc] at hu
      exact Or.inl hu
  | contractTimeout =>
    simp only [closeCalendarPosition] at hu
    by_cases hc : 0 < t.profit_target_order_id ∧
        t.profit_target_status = "PLACED"
    · simp only [if_pos hc] at hu
      rcases allRecords_persist _ _ _ hu with h | h
      · right; rw [h]; exact hok1
      · exact Or.inl h
    · simp only [if_neg hc] at hu
      exact Or.inl hu
  | noMarketValue2 =>
    simp only [closeCalendarPosition] at hu
    by_cases hc : 0 < t.profit_target_order_id ∧
        t.profit_target_status = "PLACED"
    · simp only [if_pos hc] at hu
      rcases allRecords_persist _ _ _ hu with h | h
      · right; rw [h]; exact hok1
      · exact Or.inl h
    · simp only [if_neg hc] at hu
      exact Or.inl hu
  | attempts mid outcomes =>
    simp only [closeCalendarPosition] at hu
    by_cases hc : 0 < t.profit_target_order_id ∧
        t.profit_target_status = "PLACED"
    · simp only [if_pos hc] at hu
      cases hr : (exitAttempts cfg.price_increment outcomes mid).fillPrice with
      | none =>
        simp only [hr] at hu
        rcases allRecords_persist _ _ _ hu with h | h
        · right; rw [h]; exact hok1
        · exact Or.inl h
      | some px =>
        simp only [hr] at hu
        rw [allRecords_addSms] at hu
        rcases allRecords_persist _ _ _ hu with h | h
        · right; rw [h]; exact hok2 px
        · rcases allRecords_persist _ _ _ h with h2 | h2
          · right; rw [h2]; exact hok1
          · exact Or.inl h2
    · simp only [if_neg hc] at hu
      cases hr : (exitAttempts cfg.price_increment outcomes mid).fillPrice with
      | none =>
        simp only [hr] at hu
        exact Or.inl hu
      | some px =>
        simp only [hr] at hu
        rw [allRecords_addSms] at hu
        rcases allRecords_persist _ _ _ hu with h | h
        · right; rw [h]; exact hok3 px (htne hc)
        · exact Or.inl h

theorem stop_records_ok (st : SysState) (t : Trade) (ht : recordOk t)
    (u : Trade) (hu : u ∈ allRecords (stopManaging st t)) :
    u ∈ allRecords st ∨ recordOk u := by
  simp only [stopManaging] at hu
  by_cases hc : 0 < t.profit_target_order_id ∧
      t.profit_target_status = "PLACED"
  · simp only [if_pos hc] at hu
    rcases allRecords_persist _ _ _ hu with h | h
    · right; rw [h]
      exact ⟨⟨(by decide : ("CANCELLED":String) ∈ ptStatusSet),
        fun hx => absurd hx (by decide : ("CANCELLED":String) ≠ "PLACED")⟩,
        fun hcl => absurd hcl
          (by decide : ("MANUAL_CONTROL":String) ≠ "CLOSED")⟩
    · rcases allRecords_persist _ _ _ h with h2 | h2
      · right; rw [h2]
        exact ⟨⟨ht.1.1, fun hx => ⟨Or.inr rfl, hc.1⟩⟩,
          fun hcl => absurd hcl
            (by decide : ("MANUAL_CONTROL":String) ≠ "CLOSED")⟩
      · exact Or.inl h2
  · simp only [if_neg hc] at hu
    rcases allRecords_persist _ _ _ hu with h | h
    · right; rw [h]
      exact ⟨⟨ht.1.1, fun hx => absurd ⟨(ht.1.2 hx).2, hx⟩ hc⟩,
        fun hcl => absurd hcl
          (by decide : ("MANUAL_CONTROL":String) ≠ "CLOSED")⟩
    · exact Or.inl h

theorem gtcStep_records (statuses : ℕ → Option String) (acc : SysState)
    (t : Trade) (hpnl : pnlOk t) (u : Trade)
    (hu : u ∈ allRecords (gtcStep statuses acc t)) :
    u ∈ allRecords acc ∨ recordOk u := by
  cases hs : statuses t.profit_target_order_id with
  | none =>
    simp only [gtcStep, hs] at hu
    exact Or.inl hu
  | some s =>
    simp only [gtcStep, hs] at hu
    by_cases hcond : s = "Cancelled" ∨ s = "Rejected" ∨ s = "ApiCancelled"
    · rw [if_pos hcond] at hu
      rcases allRecords_persist _ _ _ hu with h | h
      · right; rw [h]
        refine ⟨⟨?_, ?_⟩, fun hcl => hpnl hcl⟩
        · rcases hcond with h1 | h1 | h1 <;> subst h1
          · exact (by decide : pyUpper "Cancelled" ∈ ptStatusSet)
          · exact (by decide : pyUpper "Rejected" ∈ ptStatusSet)
          · exact (by decide : pyUpper "ApiCancelled" ∈ ptStatusSet)
        · intro hx
          rcases hcond with h1 | h1 | h1 <;> subst h1
          · exact absurd hx (by decide : ¬ (pyUpper "Cancelled" = "PLACED"))
          · exact absurd hx (by decide : ¬ (pyUpper "Rejected" = "PLACED"))
          · exact absurd hx
              (by decide : ¬ (pyUpper "ApiCancelled" = "PLACED"))
      · rw [allRecords_addSms] at h
        exact Or.inl h
    · rw [if_neg hcond] at hu
      exact Or.inl hu

theorem gtc_foldl_records (statuses : ℕ → Option String) :
    ∀ (l : List Trade), (∀ t ∈ l, pnlOk t) →
    ∀ (st : SysState) (u : Trade),
      u ∈ allRecords (l.foldl (gtcStep statuses) st) →
      u ∈ allRecords st ∨ recordOk u := by
  intro l
  induction l with
  | nil => intro _ st u hu; exact Or.inl hu
  | cons t rest ih =>
    intro hl st u hu
    rw [List.foldl_cons] at hu
    rcases ih (fun x hx => hl x (List.mem_cons_of_mem t hx))
        (gtcStep statuses st t) u hu with h | h
    · exact gtcStep_records statuses st t (hl t (List.mem_cons_self t rest)) u h
    · exact Or.inr h

theorem gtc_records_ok (cfg : Config) (st : SysState)
    (statuses : ℕ → Option String)
    (hst : ∀ v ∈ allRecords st, pnlOk v) (u : Trade)
    (hu : u ∈ allRecords (applyOp cfg st (Op.gtcCheck statuses))) :
    u ∈ allRecords st ∨ recordOk u := by
  simp only [applyOp, checkGtcOrderStatus] at hu
  refine gtc_foldl_records statuses _ ?_ st u hu
  intro t htl
  have h1 := List.mem_of_mem_filter htl
  simp only [getActiveTrades] at h1
  exact hst t (List.mem_append_left _ (List.mem_of_mem_filter h1))

theorem reconcile_records (cfg : Config) (st : SysState)
    (snap : List BrokerPos) (u : Trade)
    (hu : u ∈ allRecords (applyOp cfg st (Op.reconcile snap))) :
    u ∈ allRecords st := by
  simp only [applyOp] at hu
  obtain ⟨hdb, hsv⟩ := reconcile_touches_no_record cfg st snap
  unfold allRecords at hu ⊢
  rw [hdb, hsv] at hu
  exact hu

theorem applyOp_records_ok (cfg : Config) (st : SysState) (op : Op)
    (hwf : op.wf) (hst : ∀ v ∈ allRecords st, recordOk v) :
    ∀ u ∈ allRecords (applyOp cfg st op), recordOk u := by
  intro u hu
  cases op with
  | entry tid ed se le ps cs lps lcs o =>
    rcases entry_records_ok cfg st tid ed se le ps cs lps lcs o hwf u hu with
      h | h
    · exact hst u h
    · exact h
  | ptFill oid px =>
    rcases ptFill_records_ok cfg st oid px u hu with h | h
    · exact hst u h
    · exact h
  | closeCmd tid reason oracle =>
    simp only [applyOp] at hu
    cases hg : getTradeById st.db tid with
    | none =>
      simp only [hg] at hu
      exact hst u hu
    | some t =>
      simp only [hg] at hu
      have htdb : t ∈ st.db := by
        simp only [getTradeById] at hg
        exact List.mem_of_find?_eq_some hg
      rcases close_records_ok cfg st t reason oracle
          (hst t (List.mem_append_left _ htdb)) u hu with h | h
      · exact hst u h
      · exact h
  | stopCmd tid =>
    simp only [applyOp] at hu
    cases hg : getTradeById st.db tid with
    | none =>
      simp only [hg] at hu
      exact hst u hu
    | some t =>
      simp only [hg] at hu
      have htdb : t ∈ st.db := by
        simp only [getTradeById] at hg
        exact List.mem_of_find?_eq_some hg
      rcases stop_records_ok st t (hst t (List.mem_append_left _ htdb)) u hu with
        h | h
      · exact hst u h
      · exact h
  | gtcCheck statuses =>
    rcases gtc_records_ok cfg st statuses (fun v hv => (hst v hv).2) u hu with
      h | h
    · exact hst u h
    · exact h
  | reconcile snap => exact hst u (reconcile_records cfg st snap u hu)

theorem reachable_recordOk (cfg : Config) (st : SysState)
    (h : Reachable cfg st) : ∀ u ∈ allRecords st, recordOk u := by
  induction h with
  | init =>
    intro u hu
    exact absurd hu (List.not_mem_nil u)
  | step st1 op h1 hwf ih => exact applyOp_records_ok cfg st1 op hwf ih

/-- C7 (amended): in every state reachable from the empty store through the
modelled lifecycle operations, every persisted trade record has
profit_target_status in the six-element set {NONE, PLACED, FILLED,
CANCELLED, REJECTED, APICANCELLED} -- the GTC status check also writes
APICANCELLED, via status.upper() on an ApiCancelled broker report -- and a
PLACED profit-target sub-status entails that the record is ACTIVE or
MANUAL_CONTROL (the STOP_MANAGING command saves a MANUAL_CONTROL record
before cancelling the order) with a positive broker order id. -/
theorem c7_pt_status_invariant (cfg : Config) (st : SysState)
    (h : Reachable cfg st) (u : Trade) (hu : u ∈ allRecords st) :
    u.profit_target_status ∈ ptStatusSet ∧
    (u.profit_target_status = "PLACED" →
      (u.status = "ACTIVE" ∨ u.status = "MANUAL_CONTROL") ∧
      0 < u.profit_target_order_id) :=
  (reachable_recordOk cfg st h u hu).1

/-- C7 witness: the invariant instantiated on the ACTIVE record written by
a concrete entry run. -/
theorem c7_pt_status_invariant_witness :
    tradeX1 ∈ allRecords entryStateX ∧
    tradeX1.profit_target_status ∈ ptStatusSet ∧
    (tradeX1.profit_target_status = "PLACED" →
      (tradeX1.status = "ACTIVE" ∨ tradeX1.status = "MANUAL_CONTROL") ∧
      0 < tradeX1.profit_target_order_id) := by
  have hm : tradeX1 ∈ allRecords entryStateX := by
    unfold allRecords
    rw [entryStateX_eval]
    simp
  have h2 := c7_pt_status_invariant defaultConfig entryStateX
    reach_entryStateX tradeX1 hm
  exact ⟨hm, h2.1, h2.2⟩

theorem close_credit (cfg : Config) (st : SysState) (t : Trade)
    (reason : String) (oracle : CloseOracle) (u : Trade)
    (hu : u ∈ allRecords (closeCalendarPosition cfg st t reason oracle).1) :
    u ∈ allRecords st ∨
      (u.trade_id = t.trade_id ∧ u.entry_credit = t.entry_credit) := by
  cases oracle with
  | noMarketValue =>
    simp only [closeCalendarPosition] at hu
    by_cases hc : 0 < t.profit_target_order_id ∧
        t.profit_target_status = "PLACED"
    · simp only [if_pos hc] at hu
      rcases allRecords_persist _ _ _ hu with h | h
      · right; rw [h]; exact ⟨rfl, rfl⟩
      · exact Or.inl h
    · simp only [if_neg hc] at hu
      exact Or.inl hu
  | contractTimeout =>
    simp only [closeCalendarPosition] at hu
    by_cases hc : 0 < t.profit_target_order_id ∧
        t.profit_target_status = "PLACED"
    · simp only [if_pos hc] at hu
      rcases allRecords_persist _ _ _ hu with h | h
      · right; rw [h]; exact ⟨rfl, rfl⟩
      · exact Or.inl h
    · simp only [if_neg hc] at hu
      exact Or.inl hu
  | noMarketValue2 =>
    simp only [closeCalendarPosition] at hu
    by_cases hc : 0 < t.profit_target_order_id ∧
        t.profit_target_status = "PLACED"
    · simp only [if_pos hc] at hu
      rcases allRecords_persist _ _ _ hu with h | h
      · right; rw [h]; exact ⟨rfl, rfl⟩
      · exact Or.inl h
    · simp only [if_neg hc] at hu
      exact Or.inl hu
  | attempts mid outcomes =>
    simp only [closeCalendarPosition] at hu
    by_cases hc : 0 < t.profit_target_order_id ∧
        t.profit_target_status = "PLACED"
    · simp only [if_pos hc] at hu
      cases hr : (exitAttempts cfg.price_increment outcomes mid).fillPrice with
      | none =>
        simp only [hr] at hu
        rcases allRecords_persist _ _ _ hu with h | h
        · right; rw [h]; exact ⟨rfl, rfl⟩
        · exact Or.inl h
      | some px =>
        simp only [hr] at hu
        rw [allRecords_addSms] at hu
        rcases allRecords_persist _ _ _ hu with h | h
        · right; rw [h]; exact ⟨rfl, rfl⟩
        · rcases allRecords_persist _ _ _ h with h2 | h2
          · right; rw [h2]; exact ⟨rfl, rfl⟩
          · exact Or.inl h2
    · simp only [if_neg hc] at hu
      cases hr : (exitAttempts cfg.price_increment outcomes mid).fillPrice with
      | none =>
        simp only [hr] at hu
        exact Or.inl hu
      | some px =>
        simp only [hr] at hu
        rw [allRecords_addSms] at hu
        rcases allRecords_persist _ _ _ hu with h | h
        · right; rw [h]; exact ⟨rfl, rfl⟩
        · exact Or.inl h

theorem stop_credit (st : SysState) (t : Trade) (u : Trade)
    (hu : u ∈ allRecords (stopManaging st t)) :
    u ∈ allRecords st ∨
      (u.trade_id = t.trade_id ∧ u.entry_credit = t.entry_credit) := by
  simp only [stopManaging] at hu
  by_cases hc : 0 < t.profit_target_order_id ∧
      t.profit_target_status = "PLACED"
  · simp only [if_pos hc] at hu
    rcases allRecords_persist _ _ _ hu with h | h
    · right; rw [h]; exact ⟨rfl, rfl⟩
    · rcases allRecords_persist _ _ _ h with h2 | h2
      · right; rw [h2]; exact ⟨rfl, rfl⟩
      · exact Or.inl h2
  · simp only [if_neg hc] at hu
    rcases allRecords_persist _ _ _ hu with h | h
    · right; rw [h]; exact ⟨rfl, rfl⟩
    · exact Or.inl h

theorem gtcStep_credit (statuses : ℕ → Option String) (acc : SysState)
    (t : Trade) (u : Trade)
    (hu : u ∈ allRecords (gtcStep statuses acc t)) :
    u ∈ allRecords acc ∨
      (u.trade_id = t.trade_id ∧ u.entry_credit = t.entry_credit) := by
  cases hs : statuses t.profit_target_order_id with
  | none =>
    simp only [gtcStep, hs] at hu
    exact Or.inl hu
  | some s =>
    simp only [gtcStep, hs] at hu
    by_cases hcond : s = "Cancelled" ∨ s = "Rejected" ∨ s = "ApiCancelled"
    · rw [if_pos hcond] at hu
      rcases allRecords_persist _ _ _ hu with h | h
      · right; rw [h]; exact ⟨rfl, rfl⟩
      · rw [allRecords_addSms] at h
        exact Or.inl h
    · rw [if_neg hcond] at hu
      exact Or.inl hu

theorem gtc_foldl_credit (statuses : ℕ → Option String) :
    ∀ (l : List Trade) (st : SysState) (u : Trade),
      u ∈ allRecords (l.foldl (gtcStep statuses) st) →
      u ∈ allRecords st ∨
        ∃ t ∈ l, u.trade_id = t.trade_id ∧ u.entry_credit = t.entry_credit := by
  intro l
  induction l with
  | nil => intro st u hu; exact Or.inl hu
  | cons t rest ih =>
    intro st u hu
    rw [List.foldl_cons] at hu
    rcases ih (gtcStep statuses st t) u hu with h | h
    · rcases gtcStep_credit statuses st t u h with h2 | h2
      · exact Or.inl h2
      · exact Or.inr ⟨t, List.mem_cons_self t rest, h2⟩
    · obtain ⟨t2, ht2, h3⟩ := h
      exact Or.inr ⟨t2, List.mem_cons_of_mem t ht2, h3⟩

theorem ptFill_credit (cfg : Config) (st : SysState) (oid : ℕ) (px : ℚ)
    (u : Trade) (hu : u ∈ allRecords (applyOp cfg st (Op.ptFill oid px))) :
    ∃ t0 ∈ allRecords st,
      t0.trade_id = u.trade_id ∧ t0.entry_credit = u.entry_credit := by
  simp only [applyOp] at hu
  cases hfind : (getActiveTrades st.db).find? (fun t =>
      t.profit_target_order_id = oid ∧ t.profit_target_status = "PLACED") with
  | none =>
    have h1 : checkProfitTargetFill st oid px = (st, false) := by
      unfold checkProfitTargetFill
      rw [hfind]
    rw [h1] at hu
    exact ⟨u, hu, rfl, rfl⟩
  | some t =>
    have h1 : (checkProfitTargetFill st oid px).1 =
        addSms (addLog (persist st (closeViaProfitTarget t px))
          "PROFIT_TARGET_HIT" true) "sms_pt_hit" := by
      unfold checkProfitTargetFill
      rw [hfind]
    rw [h1, allRecords_addSms, allRecords_addLog] at hu
    have htmem : t ∈ allRecords st := by
      have h2 : t ∈ getActiveTrades st.db := List.mem_of_find?_eq_some hfind
      simp only [getActiveTrades] at h2
      exact List.mem_append_left _ (List.mem_of_mem_filter h2)
    rcases allRecords_persist _ _ _ hu with h | h
    · refine ⟨t, htmem, ?_, ?_⟩ <;> rw [h] <;> rfl
    · exact ⟨u, h, rfl, rfl⟩

theorem nonEntry_credit (cfg : Config) (st : SysState) (op : Op)
    (hne : op.nonEntry) (u : Trade)
    (hu : u ∈ allRecords (applyOp cfg st op)) :
    ∃ t0 ∈ allRecords st,
      t0.trade_id = u.trade_id ∧ t0.entry_credit = u.entry_credit := by
  cases op with
  | entry tid ed se le ps cs lps lcs o => exact hne.elim
  | ptFill oid px => exact ptFill_credit cfg st oid px u hu
  | closeCmd tid reason oracle =>
    simp only [applyOp] at hu
    cases hg : getTradeById st.db tid with
    | none =>
      simp only [hg] at hu
      exact ⟨u, hu, rfl, rfl⟩
    | some t =>
      simp only [hg] at hu
      have htdb : t ∈ st.db := by
        simp only [getTradeById] at hg
        exact List.mem_of_find?_eq_some hg
      rcases close_credit cfg st t reason oracle u hu with h | h
      · exact ⟨u, h, rfl, rfl⟩
      · exact ⟨t, List.mem_append_left _ htdb, h.1.symm, h.2.symm⟩
  | stopCmd tid =>
    simp only [applyOp] at hu
    cases hg : getTradeById st.db tid with
    | none =>
      simp only [hg] at hu
      exact ⟨u, hu, rfl, rfl⟩
    | some t =>
      simp only [hg] at hu
      have htdb : t ∈ st.db := by
        simp only [getTradeById] at hg
        exact List.mem_of_find?_eq_some hg
      rcases stop_credit st t u hu with h | h
      · exact ⟨u, h, rfl, rfl⟩
      · exact ⟨t, List.mem_append_left _ htdb, h.1.symm, h.2.symm⟩
  | gtcCheck statuses =>
    simp only [applyOp, checkGtcOrderStatus] at hu
    rcases gtc_foldl_credit statuses _ st u hu with h | h
    · exact ⟨u, h, rfl, rfl⟩
    · obtain ⟨t, htl, h1, h2⟩ := h
      have htmem : t ∈ allRecords st := by
        have hh := List.mem_of_mem_filter htl
        simp only [getActiveTrades] at hh
        exact List.mem_append_left _ (List.mem_of_mem_filter hh)
      exact ⟨t, htmem, h1.symm, h2.symm⟩
  | reconcile snap => exact ⟨u, reconcile_records cfg st snap u hu, rfl, rfl⟩

/-- C3 (amended): every persisted record that is CLOSED carries
realized_pnl = exit_credit - entry_credit exactly, in every state
reachable from the empty store; and entry_credit is written only at entry:
every record held or written by any non-entry operation (profit-target
fill, close, stop-managing, GTC check, reconciliation) carries the
entry_credit of a record of the same trade already in the store.  The
once-only part of the original claim fails: a duplicate close command
rewrites realized_pnl with a different value (see the counterexample). -/
theorem c3_closed_pnl_and_entry_credit :
    (∀ (cfg : Config) (st : SysState), Reachable cfg st →
      ∀ u ∈ allRecords st, u.status = "CLOSED" →
        u.realized_pnl = u.exit_credit - u.entry_credit) ∧
    (∀ (cfg : Config) (st : SysState) (op : Op), op.nonEntry →
      ∀ u ∈ allRecords (applyOp cfg st op),
        ∃ t0 ∈ allRecords st,
          t0.trade_id = u.trade_id ∧ t0.entry_credit = u.entry_credit) :=
  ⟨fun cfg st h u hu hc => (reachable_recordOk cfg st h u hu).2 hc,
   fun cfg st op hne u hu => nonEntry_credit cfg st op hne u hu⟩

end SPXDC
